import Mathlib

/-!
Shallow embedding of the Phase 2 OTB (open-to-buy) calculation engine of the
Kyros backend (`src/backend/app/services/otb_calculation_engine.py`) together
with its position repository (`src/backend/app/repositories/otb_position_repo.py`)
and the relevant ORM models.

Modelling conventions:
* `Decimal` columns are modelled as `ℚ`.  All stored amounts have scale 2 and
  the engine's additions, subtractions, `max` and sums on `Decimal` are exact,
  so `ℚ` matches them exactly; the only inexact Python operation used by the
  claims is `round(_, 2)`, modelled faithfully as round-half-even to two
  decimal places (`round2` below).
* `date` months are already normalized to first-of-month for OTB plan rows
  (validated upstream in `src/backend/app/schemas/otb.py`), so a month is
  modelled as a `Nat` index denoting that first-of-month date, and the
  `month.replace(day=1)` in `OTBPositionRepository.upsert` is the identity on
  it.  A purchase order's `order_date` is an arbitrary date, modelled as a
  month index plus a day; the SQL `strftime("%Y-%m-01", order_date)`
  truncation maps it to its month index.
* UUID primary/foreign keys are modelled as `Nat`.
* the SQLAlchemy session holding the rows of one database is modelled as
  lists of rows (`DB` below); SQL `WHERE`/`GROUP BY`/`func.sum` queries become
  list filters and sums over them.  A `GROUP BY` result is represented by the
  list of its distinct keys (`distinctKeys`) plus the per-key aggregate
  (a filtered sum); looking a key up in the resulting Python dict with a
  default of `Decimal("0.00")` is the filtered sum itself, since a key absent
  from the dict has an empty row group and hence sum 0.
* `HTTPException`s raised by the engine are modelled as the spec's error
  taxonomy (`EngineError`); the engine raises before performing any mutation,
  which the `Except` result type captures: an `error` result leaves the
  database untouched.
* the audit log is a write-only sink (out of scope per the spec) and display
  enrichment (category names, human-readable messages) carries no logic, so
  audit calls and the `message`/`category_name` fields are omitted.
-/

namespace OTBEngine

abbrev SeasonId := Nat
abbrev CatId := Nat
abbrev UserId := Nat
abbrev LocId := Nat
abbrev AdjId := Nat

/-- First-of-month dates, as an abstract month index (order-preserving). -/
abbrev Month := Nat

/-- Wall-clock timestamps (`datetime.now(timezone.utc)`), abstract ticks. -/
abbrev Time := Nat

/-- A calendar date: its month plus the day within the month.  The engine only
ever uses the `strftime("%Y-%m-01", …)` truncation of an order date, i.e. the
`month` component. -/
structure OrderDate where
  month : Month
  day : Nat
deriving DecidableEq, Repr

/-- Season workflow status (`app/models/season.py`, `SeasonStatus`). -/
inductive SeasonStatus
  | created
  | locations_defined
  | plan_uploaded
  | otb_uploaded
  | range_uploaded
  | locked
deriving DecidableEq, Repr

/-- A season row, restricted to the fields the engine reads. -/
structure Season where
  id : SeasonId
  status : SeasonStatus
deriving DecidableEq, Repr

/-- Modelled from the spec: `POStatus` is imported by the engine from
`app.models.purchase_order`, but that module in the source tree does not
define it (nor the `status`/`order_date` columns that the engine's queries
reference).  Spec §4.2 lists the statuses: draft, submitted, confirmed,
shipped, partial, complete and cancelled (`partial` is rendered
`partialFill` here). -/
inductive POStatus
  | draft
  | submitted
  | confirmed
  | shipped
  | partialFill
  | complete
  | cancelled
deriving DecidableEq, Repr

/-- A purchase order row (`app/models/purchase_order.py`), restricted to the
fields the engine reads.  The `status` and `order_date` columns are modelled
from the spec (§3): they are queried by the engine but absent from the model
file in the source tree. -/
structure PurchaseOrder where
  season_id : SeasonId
  category_id : CatId
  po_value : ℚ
  status : POStatus
  order_date : Option OrderDate
deriving DecidableEq, Repr

/-- An OTB plan row (`app/models/otb_plan.py`), restricted to the fields the
engine reads.  `category_id` is `nullable=False` in the model. -/
structure OTBPlan where
  season_id : SeasonId
  location_id : LocId
  category_id : CatId
  month : Month
  approved_spend_limit : ℚ
deriving DecidableEq, Repr

/-- Adjustment approval status (`app/models/otb_adjustment.py`). -/
inductive AdjustmentStatus
  | pending
  | approved
  | rejected
deriving DecidableEq, Repr

/-- An OTB adjustment row (`app/models/otb_adjustment.py`). -/
structure OTBAdjustment where
  id : AdjId
  season_id : SeasonId
  from_category_id : Option CatId
  to_category_id : Option CatId
  amount : ℚ
  reason : String
  status : AdjustmentStatus
  approved_by : Option UserId
  approved_at : Option Time
  rejection_reason : Option String
  created_by : Option UserId
deriving DecidableEq, Repr

/-- An OTB position row (`app/models/otb_position.py`), restricted to the
fields the engine reads and writes.  The table has a unique constraint on
`(season_id, category_id, month)`. -/
structure OTBPosition where
  season_id : SeasonId
  category_id : Option CatId
  month : Month
  planned_otb : ℚ
  consumed_otb : ℚ
  available_otb : ℚ
  last_calculated : Option Time
deriving DecidableEq, Repr

/-- The relational store, as seen by the engine. -/
structure DB where
  seasons : List Season
  plans : List OTBPlan
  orders : List PurchaseOrder
  adjustments : List OTBAdjustment
  positions : List OTBPosition
deriving DecidableEq, Repr

/-- The spec's error taxonomy (§7); each constructor corresponds to one of the
`HTTPException`s the engine raises (404, 400, 400 and 403 respectively). -/
inductive EngineError
  | notFound
  | invalidState
  | insufficientBudget
  | lockedSeason
deriving DecidableEq, Repr

/-- Alert threshold defaults (module constants of the engine). -/
def DEFAULT_LOW_OTB_THRESHOLD : ℚ := 20

/-- Underutilization threshold default (50%). -/
def DEFAULT_UNDERUTILIZED_THRESHOLD : ℚ := 50

/-- Imbalance threshold default (25% variance). -/
def DEFAULT_IMBALANCE_THRESHOLD : ℚ := 25

/-- The list of distinct values of a list, keeping the first occurrence of
each, like the key set of a Python dict built by iterating the list.  (SQL
leaves the row order of a `GROUP BY` unspecified; a concrete order is fixed
here.) -/
def distinctKeys {α : Type} [DecidableEq α] : List α → List α
  | [] => []
  | k :: ks => if k ∈ distinctKeys ks then distinctKeys ks else k :: distinctKeys ks

/-- The optional category filter appearing as `if category_id: query.where(...)`
in the aggregation helpers: no filter when absent, equality when present. -/
def catFilter (cat? : Option CatId) (c : CatId) : Bool :=
  match cat? with
  | none => true
  | some c0 => c == c0

/-- The rows selected by `_get_planned_otb_by_category_month`: OTB plan rows
of the season, optionally restricted to one category. -/
def planRowsFor (db : DB) (sid : SeasonId) (cat? : Option CatId) : List OTBPlan :=
  db.plans.filter (fun p => p.season_id == sid && catFilter cat? p.category_id)

/-- The `(category_id, month)` keys of the planned-OTB `GROUP BY` of
`_get_planned_otb_by_category_month`. -/
def planKeys (db : DB) (sid : SeasonId) (cat? : Option CatId) : List (CatId × Month) :=
  distinctKeys ((planRowsFor db sid cat?).map (fun p => (p.category_id, p.month)))

/-- The dict produced by `_get_planned_otb_by_category_month`, as a total
lookup: the summed `approved_spend_limit` of the key's row group (0 when the
key has no rows, matching `dict.get(key, Decimal("0.00"))`). -/
def plannedLookup (db : DB) (sid : SeasonId) (cat? : Option CatId) (k : CatId × Month) : ℚ :=
  (((planRowsFor db sid cat?).filter
      (fun p => p.category_id == k.1 && p.month == k.2)).map
    (fun p => p.approved_spend_limit)).sum

/-- The active (non-cancelled) PO statuses listed in
`_get_consumed_otb_by_category_month`. -/
def active_statuses : List POStatus :=
  [POStatus.draft, POStatus.submitted, POStatus.confirmed,
   POStatus.shipped, POStatus.partialFill, POStatus.complete]

/-- The `strftime("%Y-%m-01", order_date)` month of an order; only ever used
on orders whose `order_date` is non-null (the query filters
`order_date.is_not(None)`). -/
def orderMonth (o : PurchaseOrder) : Month :=
  match o.order_date with
  | some d => d.month
  | none => 0

/-- The rows selected by `_get_consumed_otb_by_category_month`: purchase
orders of the season whose status is active and whose `order_date` is
non-null, optionally restricted to one category. -/
def activeOrdersFor (db : DB) (sid : SeasonId) (cat? : Option CatId) : List PurchaseOrder :=
  db.orders.filter (fun o =>
    o.season_id == sid && active_statuses.contains o.status &&
    o.order_date.isSome && catFilter cat? o.category_id)

/-- The `(category_id, month)` keys of the consumption `GROUP BY` of
`_get_consumed_otb_by_category_month`. -/
def consumedKeys (db : DB) (sid : SeasonId) (cat? : Option CatId) : List (CatId × Month) :=
  distinctKeys ((activeOrdersFor db sid cat?).map (fun o => (o.category_id, orderMonth o)))

/-- The dict produced by `_get_consumed_otb_by_category_month`, as a total
lookup (`consumed.get(key, Decimal("0.00"))`). -/
def consumedLookup (db : DB) (sid : SeasonId) (cat? : Option CatId) (k : CatId × Month) : ℚ :=
  (((activeOrdersFor db sid cat?).filter
      (fun o => o.category_id == k.1 && orderMonth o == k.2)).map
    (fun o => o.po_value)).sum

/-- The lookup `adjustments.get(("from", c), Decimal("0.00"))` over the dict
built by `_get_approved_adjustment_totals`: the summed amount of the season's
approved adjustments whose `from_category_id` is `c` (the query keeps only
non-null `from_category_id` and optionally one category). -/
def adjOut (db : DB) (sid : SeasonId) (cat? : Option CatId) (c : CatId) : ℚ :=
  ((db.adjustments.filter (fun a =>
      a.season_id == sid && a.status == AdjustmentStatus.approved &&
      a.from_category_id == some c &&
      (match cat? with
       | none => true
       | some c0 => a.from_category_id == some c0))).map
    (fun a => a.amount)).sum

/-- The lookup `adjustments.get(("to", c), Decimal("0.00"))` over the dict
built by `_get_approved_adjustment_totals`. -/
def adjIn (db : DB) (sid : SeasonId) (cat? : Option CatId) (c : CatId) : ℚ :=
  ((db.adjustments.filter (fun a =>
      a.season_id == sid && a.status == AdjustmentStatus.approved &&
      a.to_category_id == some c &&
      (match cat? with
       | none => true
       | some c0 => a.to_category_id == some c0))).map
    (fun a => a.amount)).sum

/-- The match predicate of `OTBPositionRepository.get_by_composite_key`
(season and month equality; category equality, with `None` matched by
`IS NULL`). -/
def posMatches (sid : SeasonId) (cat : Option CatId) (m : Month) (p : OTBPosition) : Bool :=
  p.season_id == sid && p.category_id == cat && p.month == m

/-- The row written by an upsert: on update the existing row's key fields
already equal `(sid, cat, m)` and every other stored field is overwritten, so
update and insert produce the same row value (`month.replace(day=1)` is the
identity on normalized months, see the module docstring). -/
def writtenPos (sid : SeasonId) (cat : Option CatId) (m : Month)
    (planned consumed available : ℚ) (now : Time) : OTBPosition :=
  { season_id := sid, category_id := cat, month := m,
    planned_otb := planned, consumed_otb := consumed, available_otb := available,
    last_calculated := some now }

/-- `OTBPositionRepository.upsert`: overwrite the row with the matching
composite key if one exists (the unique constraint guarantees at most one),
else append a new row.  Returns the new store and the upserted row. -/
def upsert (ps : List OTBPosition) (sid : SeasonId) (cat : Option CatId) (m : Month)
    (planned consumed available : ℚ) (now : Time) : List OTBPosition × OTBPosition :=
  let row := writtenPos sid cat m planned consumed available now
  if ps.any (posMatches sid cat m) then
    (ps.map (fun q => if posMatches sid cat m q then row else q), row)
  else
    (ps ++ [row], row)

/-- The loop body's `effective_planned = planned_otb + adj_in - adj_out` for
one `(category, month)` key. -/
def effectivePlanned (db : DB) (sid : SeasonId) (cat? : Option CatId)
    (k : CatId × Month) : ℚ :=
  plannedLookup db sid cat? k + adjIn db sid cat? k.1 - adjOut db sid cat? k.1

/-- The loop body's `available_otb = max(effective_planned - consumed_otb, 0)`
for one `(category, month)` key. -/
def availableOTB (db : DB) (sid : SeasonId) (cat? : Option CatId)
    (k : CatId × Month) : ℚ :=
  max (effectivePlanned db sid cat? k - consumedLookup db sid cat? k) 0

/-- One iteration of the upsert loop shared by `recalculate_season` and
`recalculate_category` (steps 4-6 of the former): effective planned, consumed
and clamped available OTB for one `(category, month)` key, upserted. -/
def recalcStep (db : DB) (sid : SeasonId) (cat? : Option CatId) (now : Time)
    (acc : List OTBPosition × List OTBPosition) (k : CatId × Month) :
    List OTBPosition × List OTBPosition :=
  let effective_planned := effectivePlanned db sid cat? k
  let consumed_otb := consumedLookup db sid cat? k
  let available_otb := max (effective_planned - consumed_otb) 0
  let r := upsert acc.1 sid (some k.1) k.2 effective_planned consumed_otb available_otb now
  (r.1, acc.2 ++ [r.2])

/-- The upsert loop over all planned `(category, month)` keys, returning the
updated position store and the list of upserted positions. -/
def recalcLoop (db : DB) (sid : SeasonId) (cat? : Option CatId) (now : Time) :
    List OTBPosition × List OTBPosition :=
  (planKeys db sid cat?).foldl (recalcStep db sid cat? now) (db.positions, [])

/-- `OTBCalculationEngine._get_season`: look the season up, 404 when absent. -/
def getSeason (db : DB) (sid : SeasonId) : Except EngineError Season :=
  match db.seasons.find? (fun s => s.id == sid) with
  | some s => Except.ok s
  | none => Except.error EngineError.notFound

/-- `OTBCalculationEngine.recalculate_season`: recompute and upsert every
planned `(category, month)` position of the season from plan rows, active PO
consumption and approved adjustments.  Returns the updated database and the
list of upserted positions. -/
def recalculate_season (db : DB) (sid : SeasonId) (now : Time) :
    Except EngineError (DB × List OTBPosition) := do
  let _ ← getSeason db sid
  let r := recalcLoop db sid none now
  Except.ok ({ db with positions := r.1 }, r.2)

/-- `OTBCalculationEngine.recalculate_category`: the same loop restricted to
one category via the `category_id` filter of the three aggregation helpers. -/
def recalculate_category (db : DB) (sid : SeasonId) (cid : CatId) (now : Time) :
    Except EngineError (DB × List OTBPosition) := do
  let _ ← getSeason db sid
  let r := recalcLoop db sid (some cid) now
  Except.ok ({ db with positions := r.1 }, r.2)

/-- The request payload of `create_adjustment`
(`OTBAdjustmentCreate` in `app/schemas/otb_position.py`). -/
structure OTBAdjustmentCreate where
  season_id : SeasonId
  from_category_id : Option CatId
  to_category_id : Option CatId
  amount : ℚ
  reason : String
deriving DecidableEq, Repr

/-- `OTBPositionRepository.get_by_season_and_category` (its `ORDER BY month`
is irrelevant to the engine, which only sums over the result). -/
def get_by_season_and_category (ps : List OTBPosition) (sid : SeasonId) (cid : CatId) :
    List OTBPosition :=
  ps.filter (fun p => p.season_id == sid && p.category_id == some cid)

/-- `OTBCalculationEngine.create_adjustment`: refuse locked seasons (403),
refuse when the source category's total available OTB is below the requested
amount (400), otherwise insert a pending ledger row.  `newId` stands for the
generated primary key of the new row. -/
def create_adjustment (db : DB) (data : OTBAdjustmentCreate) (user_id : UserId)
    (newId : AdjId) : Except EngineError (DB × OTBAdjustment) := do
  let season ← getSeason db data.season_id
  if season.status == SeasonStatus.locked then
    throw EngineError.lockedSeason
  match data.from_category_id with
  | some fc =>
    let positions := get_by_season_and_category db.positions data.season_id fc
    let total_available := (positions.map (fun p => p.available_otb)).sum
    if total_available < data.amount then
      throw EngineError.insufficientBudget
  | none => pure ()
  let adjustment : OTBAdjustment :=
    { id := newId, season_id := data.season_id,
      from_category_id := data.from_category_id,
      to_category_id := data.to_category_id,
      amount := data.amount, reason := data.reason,
      status := AdjustmentStatus.pending,
      approved_by := none, approved_at := none, rejection_reason := none,
      created_by := some user_id }
  Except.ok ({ db with adjustments := db.adjustments ++ [adjustment] }, adjustment)

/-- `OTBAdjustmentRepository.get_by_id`, as a lookup in the ledger list. -/
def findAdjustment (db : DB) (adjustment_id : AdjId) : Option OTBAdjustment :=
  db.adjustments.find? (fun a => a.id == adjustment_id)

/-- Replace the ledger row with the given id (the SQLAlchemy in-place mutation
plus flush). -/
def setAdjustment (db : DB) (adjustment_id : AdjId) (a : OTBAdjustment) : DB :=
  { db with adjustments := db.adjustments.map (fun x => if x.id == adjustment_id then a else x) }

/-- The two recalculation blocks `approve_adjustment` runs after flipping the
status: the `from` category and then the `to` category, each when present. -/
def recalcPair (db1 : DB) (sid : SeasonId) (fc? tc? : Option CatId) (now : Time) :
    Except EngineError DB := do
  let db2 ← match fc? with
    | some fc => do
      let r ← recalculate_category db1 sid fc now
      pure r.1
    | none => pure db1
  match tc? with
    | some tc => do
      let r ← recalculate_category db2 sid tc now
      pure r.1
    | none => pure db2

/-- `OTBCalculationEngine.approve_adjustment`: 404 when the id is unknown,
400 when the adjustment is not pending; otherwise mark it approved (recording
approver and timestamp) and recalculate the `from` and `to` categories, each
when present, before returning. -/
def approve_adjustment (db : DB) (adjustment_id : AdjId) (approver_id : UserId)
    (now : Time) : Except EngineError (DB × OTBAdjustment) := do
  let adj ← match findAdjustment db adjustment_id with
    | some a => pure a
    | none => throw EngineError.notFound
  if adj.status != AdjustmentStatus.pending then
    throw EngineError.invalidState
  let adj1 := { adj with status := AdjustmentStatus.approved,
                         approved_by := some approver_id,
                         approved_at := some now }
  let db1 := setAdjustment db adjustment_id adj1
  let db3 ← recalcPair db1 adj1.season_id adj1.from_category_id adj1.to_category_id now
  Except.ok (db3, adj1)

/-- `OTBCalculationEngine.reject_adjustment`: same guards as approval, but the
status becomes rejected, the rejection reason is recorded, and no
recalculation is triggered. -/
def reject_adjustment (db : DB) (adjustment_id : AdjId) (reviewer_id : UserId)
    (rejection_reason : String) (now : Time) : Except EngineError (DB × OTBAdjustment) := do
  let adj ← match findAdjustment db adjustment_id with
    | some a => pure a
    | none => throw EngineError.notFound
  if adj.status != AdjustmentStatus.pending then
    throw EngineError.invalidState
  let adj1 := { adj with status := AdjustmentStatus.rejected,
                         approved_by := some reviewer_id,
                         approved_at := some now,
                         rejection_reason := some rejection_reason }
  Except.ok (setAdjustment db adjustment_id adj1, adj1)

/-- One row of `OTBPositionRepository.get_category_summary`. -/
structure CategorySummary where
  category_id : Option CatId
  total_planned : ℚ
  total_consumed : ℚ
  total_available : ℚ
deriving DecidableEq, Repr

/-- The distinct category keys of the season's positions (the `GROUP BY
category_id` of `get_category_summary`). -/
def categoryKeys (ps : List OTBPosition) (sid : SeasonId) : List (Option CatId) :=
  distinctKeys ((ps.filter (fun p => p.season_id == sid)).map (fun p => p.category_id))

/-- The positions of the season belonging to one category group. -/
def categoryRows (ps : List OTBPosition) (sid : SeasonId) (c : Option CatId) :
    List OTBPosition :=
  ps.filter (fun p => p.season_id == sid && p.category_id == c)

/-- `OTBPositionRepository.get_category_summary`: per-category sums of
planned, consumed and available OTB over the season's positions. -/
def get_category_summary (ps : List OTBPosition) (sid : SeasonId) : List CategorySummary :=
  (categoryKeys ps sid).map (fun c =>
    { category_id := c,
      total_planned := ((categoryRows ps sid c).map (fun p => p.planned_otb)).sum,
      total_consumed := ((categoryRows ps sid c).map (fun p => p.consumed_otb)).sum,
      total_available := ((categoryRows ps sid c).map (fun p => p.available_otb)).sum })

/-- Round-half-even to an integer, as Python's `round`/`decimal` default
(`ROUND_HALF_EVEN`). -/
def roundHalfEven (q : ℚ) : ℤ :=
  if Int.fract q < 1/2 then ⌊q⌋
  else if 1/2 < Int.fract q then ⌊q⌋ + 1
  else if ⌊q⌋ % 2 = 0 then ⌊q⌋ else ⌊q⌋ + 1

/-- Python's `round(x, 2)` on `Decimal`: half-even rounding to two decimal
places. -/
def round2 (q : ℚ) : ℚ :=
  (roundHalfEven (q * 100) : ℚ) / 100

/-- One alert of `get_alerts` (`OTBAlert` in `app/schemas/otb_position.py`);
the display-only `message`, `category_name` and `season_id` fields are
omitted. -/
structure OTBAlert where
  alert_type : String
  severity : String
  category_id : Option CatId
  current_value : ℚ
  threshold_value : ℚ
deriving DecidableEq, Repr

/-- The alerts the `get_alerts` loop emits for one category summary row:
low-OTB, exceeded, underutilized and imbalance checks, skipping categories
without positive planned OTB. -/
def alertsForCategory (avg_planned : ℚ) (cs : CategorySummary) :
    List OTBAlert :=
  let tp := cs.total_planned
  let tc := cs.total_consumed
  let ta := cs.total_available
  if tp ≤ 0 then []
  else
    let pct := round2 (tc / tp * 100)
    (if ta < tp * (DEFAULT_LOW_OTB_THRESHOLD / 100) then
      [{ alert_type := "low_otb", severity := "warning", category_id := cs.category_id,
         current_value := ta,
         threshold_value := round2 (tp * DEFAULT_LOW_OTB_THRESHOLD / 100) }]
     else []) ++
    (if tc > tp then
      [{ alert_type := "otb_exceeded", severity := "critical", category_id := cs.category_id,
         current_value := tc, threshold_value := tp }]
     else []) ++
    (if pct < DEFAULT_UNDERUTILIZED_THRESHOLD then
      [{ alert_type := "underutilized", severity := "warning", category_id := cs.category_id,
         current_value := pct, threshold_value := DEFAULT_UNDERUTILIZED_THRESHOLD }]
     else []) ++
    (if avg_planned > 0 && decide (DEFAULT_IMBALANCE_THRESHOLD < |tp - avg_planned| / avg_planned * 100) then
      [{ alert_type := "category_imbalance", severity := "warning", category_id := cs.category_id,
         current_value := tp, threshold_value := avg_planned }]
     else [])

/-- The cross-category average planned OTB of the `get_alerts` loop, computed
over categories with positive planned totals (0 when there are none). -/
def avgPlanned (cat_summary : List CategorySummary) : ℚ :=
  let all_planned := (cat_summary.filter (fun cs => cs.total_planned > 0)).map
    (fun cs => cs.total_planned)
  if all_planned.isEmpty then 0
  else all_planned.sum / (all_planned.length : ℚ)

/-- `OTBCalculationEngine.get_alerts`: look the season up, recalculate it,
then emit threshold alerts per category summary row.  Returns the recalculated
database together with the alert list. -/
def get_alerts (db : DB) (sid : SeasonId) (now : Time) :
    Except EngineError (DB × List OTBAlert) := do
  let _ ← getSeason db sid
  let r ← recalculate_season db sid now
  let db1 := r.1
  let cat_summary := get_category_summary db1.positions sid
  Except.ok (db1, (cat_summary.map (alertsForCategory (avgPlanned cat_summary))).flatten)

/-! ### Basic toolkit: distinct keys, upsert and loop characterizations -/

theorem ok_bind {ε α β : Type} (a : α) (f : α → Except ε β) :
    (Except.ok a : Except ε α) >>= f = f a := rfl

theorem error_bind {ε α β : Type} (e : ε) (f : α → Except ε β) :
    (Except.error e : Except ε α) >>= f = Except.error e := rfl

theorem pure_bind_except {ε α β : Type} (a : α) (f : α → Except ε β) :
    (pure a : Except ε α) >>= f = f a := rfl

theorem distinctKeys_cons {α : Type} [DecidableEq α] (k : α) (ks : List α) :
    distinctKeys (k :: ks) =
      if k ∈ distinctKeys ks then distinctKeys ks else k :: distinctKeys ks := rfl

theorem mem_distinctKeys {α : Type} [DecidableEq α] (l : List α) (a : α) :
    a ∈ distinctKeys l ↔ a ∈ l := by
  induction l with
  | nil => simp [distinctKeys]
  | cons k ks ih =>
    rw [distinctKeys_cons]
    by_cases h : k ∈ distinctKeys ks
    · rw [if_pos h, List.mem_cons, ih]
      constructor
      · exact fun hm => Or.inr hm
      · rintro (rfl | hm)
        · exact ih.mp h
        · exact hm
    · rw [if_neg h, List.mem_cons, List.mem_cons, ih]

theorem nodup_distinctKeys {α : Type} [DecidableEq α] (l : List α) :
    (distinctKeys l).Nodup := by
  induction l with
  | nil => simp [distinctKeys]
  | cons k ks ih =>
    rw [distinctKeys_cons]
    by_cases h : k ∈ distinctKeys ks
    · rw [if_pos h]; exact ih
    · rw [if_neg h, List.nodup_cons]
      exact ⟨h, ih⟩

theorem nodup_planKeys (db : DB) (sid : SeasonId) (cat? : Option CatId) :
    (planKeys db sid cat?).Nodup :=
  nodup_distinctKeys _

/-- The row an upsert hands back, in both branches. -/
theorem upsert_snd (ps : List OTBPosition) (sid : SeasonId) (cat : Option CatId)
    (m : Month) (p c a : ℚ) (now : Time) :
    (upsert ps sid cat m p c a now).2 = writtenPos sid cat m p c a now := by
  unfold upsert
  split <;> rfl

theorem upsert_fst_pos (ps : List OTBPosition) (sid : SeasonId) (cat : Option CatId)
    (m : Month) (p c a : ℚ) (now : Time) (h : ps.any (posMatches sid cat m) = true) :
    (upsert ps sid cat m p c a now).1 =
      ps.map (fun q => if posMatches sid cat m q then writtenPos sid cat m p c a now else q) := by
  simp only [upsert, h, if_true]

theorem upsert_fst_neg (ps : List OTBPosition) (sid : SeasonId) (cat : Option CatId)
    (m : Month) (p c a : ℚ) (now : Time) (h : ps.any (posMatches sid cat m) = false) :
    (upsert ps sid cat m p c a now).1 = ps ++ [writtenPos sid cat m p c a now] := by
  simp only [upsert, h]
  rfl

/-- The store component of the upsert loop, generic in the three per-key
value functions (instantiated with `effectivePlanned`, `consumedLookup` and
`availableOTB` for the engine's runs). -/
def storeFold (sid : SeasonId) (now : Time) (P C A : CatId × Month → ℚ)
    (ks : List (CatId × Month)) (ps : List OTBPosition) : List OTBPosition :=
  ks.foldl (fun acc k => (upsert acc sid (some k.1) k.2 (P k) (C k) (A k) now).1) ps

/-- The row the loop writes for one key. -/
def rowFor (sid : SeasonId) (now : Time) (P C A : CatId × Month → ℚ)
    (k : CatId × Month) : OTBPosition :=
  writtenPos sid (some k.1) k.2 (P k) (C k) (A k) now

/-- Whether the store already holds a row with the given key. -/
def storeHas (sid : SeasonId) (ps : List OTBPosition) (k : CatId × Month) : Bool :=
  ps.any (posMatches sid (some k.1) k.2)

/-- What becomes of a pre-existing row after the loop: overwritten when its
key is among the written keys, untouched otherwise. -/
def overwriteBy (sid : SeasonId) (now : Time) (P C A : CatId × Month → ℚ)
    (ks : List (CatId × Month)) (p : OTBPosition) : OTBPosition :=
  match ks.find? (fun k => posMatches sid (some k.1) k.2 p) with
  | some k => rowFor sid now P C A k
  | none => p

theorem posMatches_iff (sid : SeasonId) (cat : Option CatId) (m : Month)
    (p : OTBPosition) :
    posMatches sid cat m p = true ↔
      p.season_id = sid ∧ p.category_id = cat ∧ p.month = m := by
  simp [posMatches, and_assoc]

theorem posMatches_rowFor (sid : SeasonId) (now : Time) (P C A : CatId × Month → ℚ)
    (k kk : CatId × Month) :
    posMatches sid (some kk.1) kk.2 (rowFor sid now P C A k) = true ↔ kk = k := by
  rw [posMatches_iff]
  simp only [rowFor, writtenPos]
  constructor
  · rintro ⟨-, hc, hm⟩
    have h1 : k.1 = kk.1 := Option.some.inj hc
    exact (Prod.ext h1 hm).symm
  · rintro rfl
    exact ⟨by trivial, by trivial, by trivial⟩

theorem posMatches_key_unique (sid : SeasonId) (p : OTBPosition)
    (k kk : CatId × Month) (h1 : posMatches sid (some k.1) k.2 p = true)
    (h2 : posMatches sid (some kk.1) kk.2 p = true) : k = kk := by
  rw [posMatches_iff] at h1 h2
  obtain ⟨-, hc1, hm1⟩ := h1
  obtain ⟨-, hc2, hm2⟩ := h2
  have : (k.1 : CatId) = kk.1 := by
    have := hc1.symm.trans hc2
    exact Option.some.inj this
  exact Prod.ext this (hm1.symm.trans hm2)

theorem overwriteBy_rowFor (sid : SeasonId) (now : Time) (P C A : CatId × Month → ℚ)
    (ks : List (CatId × Month)) (k : CatId × Month) (hk : k ∉ ks) :
    overwriteBy sid now P C A ks (rowFor sid now P C A k) = rowFor sid now P C A k := by
  unfold overwriteBy
  have : ks.find? (fun kk => posMatches sid (some kk.1) kk.2 (rowFor sid now P C A k)) = none := by
    rw [List.find?_eq_none]
    intro kk hkk hmatch
    exact hk ((posMatches_rowFor sid now P C A k kk).mp hmatch ▸ hkk)
  rw [this]

/-- The characterization of the upsert loop's store: pre-existing rows are
mapped through `overwriteBy` in place, and a fresh row is appended for every
written key the store did not yet hold, in key order. -/
theorem storeFold_char (sid : SeasonId) (now : Time) (P C A : CatId × Month → ℚ) :
    ∀ ks : List (CatId × Month), ks.Nodup → ∀ ps : List OTBPosition,
      storeFold sid now P C A ks ps =
        ps.map (overwriteBy sid now P C A ks) ++
        (ks.filter (fun k => !storeHas sid ps k)).map (rowFor sid now P C A) := by
  intro ks
  induction ks with
  | nil =>
    intro _ ps
    have h1 : ps.map (overwriteBy sid now P C A []) = ps :=
      List.map_id'' (fun p => rfl) ps
    simp only [storeFold, List.foldl_nil, List.filter_nil, List.map_nil,
      List.append_nil, h1]
  | cons k ks ih =>
    intro hnd ps
    obtain ⟨hk, hnd2⟩ := List.nodup_cons.mp hnd
    have hstep : storeFold sid now P C A (k :: ks) ps =
        storeFold sid now P C A ks
          ((upsert ps sid (some k.1) k.2 (P k) (C k) (A k) now).1) := rfl
    have hfindpos : ∀ p : OTBPosition, posMatches sid (some k.1) k.2 p = true →
        List.find? (fun kk => posMatches sid (some kk.1) kk.2 p) (k :: ks) = some k := by
      intro p hm
      exact List.find?_cons_of_pos
        (p := fun kk => posMatches sid (some kk.1) kk.2 p) (a := k) ks hm
    have hfindneg : ∀ p : OTBPosition, posMatches sid (some k.1) k.2 p = false →
        List.find? (fun kk => posMatches sid (some kk.1) kk.2 p) (k :: ks) =
          List.find? (fun kk => posMatches sid (some kk.1) kk.2 p) ks := by
      intro p hm
      exact List.find?_cons_of_neg
        (p := fun kk => posMatches sid (some kk.1) kk.2 p) (a := k) ks
        (by simp only [hm]; exact Bool.false_ne_true)
    by_cases hhas : ps.any (posMatches sid (some k.1) k.2) = true
    · -- the store already holds the key: the upsert rewrites in place
      have hup := upsert_fst_pos ps sid (some k.1) k.2 (P k) (C k) (A k) now hhas
      rw [hstep, hup, ih hnd2]
      have hfun : ∀ p : OTBPosition,
          overwriteBy sid now P C A ks
            (if posMatches sid (some k.1) k.2 p then
              writtenPos sid (some k.1) k.2 (P k) (C k) (A k) now else p) =
          overwriteBy sid now P C A (k :: ks) p := by
        intro p
        by_cases hm : posMatches sid (some k.1) k.2 p = true
        · rw [if_pos hm]
          have h1 : writtenPos sid (some k.1) k.2 (P k) (C k) (A k) now =
              rowFor sid now P C A k := rfl
          rw [h1, overwriteBy_rowFor sid now P C A ks k hk]
          unfold overwriteBy
          rw [hfindpos p hm]
        · rw [if_neg hm]
          unfold overwriteBy
          rw [hfindneg p (Bool.eq_false_iff.mpr hm)]
      have hmap : (ps.map (fun q => if posMatches sid (some k.1) k.2 q then
            writtenPos sid (some k.1) k.2 (P k) (C k) (A k) now else q)).map
              (overwriteBy sid now P C A ks) =
          ps.map (overwriteBy sid now P C A (k :: ks)) := by
        rw [List.map_map]
        exact List.map_congr_left (fun p _ => hfun p)
      have hpoint : ∀ kk : CatId × Month, kk ≠ k → ∀ p : OTBPosition,
          posMatches sid (some kk.1) kk.2
            (if posMatches sid (some k.1) k.2 p then
              writtenPos sid (some k.1) k.2 (P k) (C k) (A k) now else p) =
          posMatches sid (some kk.1) kk.2 p := by
        intro kk hne p
        by_cases hm : posMatches sid (some k.1) k.2 p = true
        · have h1 : (if posMatches sid (some k.1) k.2 p then
              writtenPos sid (some k.1) k.2 (P k) (C k) (A k) now else p) =
              rowFor sid now P C A k := by rw [if_pos hm]; rfl
          rw [h1]
          have hleft : posMatches sid (some kk.1) kk.2 (rowFor sid now P C A k) = false := by
            rw [Bool.eq_false_iff]
            intro hc
            exact hne ((posMatches_rowFor sid now P C A k kk).mp hc)
          have hright : posMatches sid (some kk.1) kk.2 p = false := by
            rw [Bool.eq_false_iff]
            intro hp
            exact hne (posMatches_key_unique sid p kk k hp hm)
          rw [hleft, hright]
        · rw [if_neg hm]
      have hfilter : ks.filter (fun kk => !storeHas sid
            (ps.map (fun q => if posMatches sid (some k.1) k.2 q then
              writtenPos sid (some k.1) k.2 (P k) (C k) (A k) now else q)) kk) =
          ks.filter (fun kk => !storeHas sid ps kk) := by
        apply List.filter_congr
        intro kk hkk
        have hne : kk ≠ k := fun h => hk (h ▸ hkk)
        have heq : storeHas sid (ps.map (fun q => if posMatches sid (some k.1) k.2 q then
              writtenPos sid (some k.1) k.2 (P k) (C k) (A k) now else q)) kk =
            storeHas sid ps kk := by
          unfold storeHas
          rw [List.any_map]
          congr 1
          funext p
          exact hpoint kk hne p
        rw [heq]
      rw [hmap, hfilter]
      have hhead : (k :: ks).filter (fun kk => !storeHas sid ps kk) =
          ks.filter (fun kk => !storeHas sid ps kk) := by
        apply List.filter_cons_of_neg
        simp [storeHas, hhas]
      rw [hhead]
    · -- the key is fresh: the upsert appends a new row
      have hhasf : ps.any (posMatches sid (some k.1) k.2) = false :=
        Bool.eq_false_iff.mpr hhas
      have hup := upsert_fst_neg ps sid (some k.1) k.2 (P k) (C k) (A k) now hhasf
      rw [hstep, hup, ih hnd2]
      have hnomatch : ∀ p ∈ ps, posMatches sid (some k.1) k.2 p = false := by
        intro p hp
        rw [Bool.eq_false_iff]
        intro hc
        have : ps.any (posMatches sid (some k.1) k.2) = true :=
          List.any_eq_true.mpr ⟨p, hp, hc⟩
        rw [this] at hhasf
        cases hhasf
      have hrow : writtenPos sid (some k.1) k.2 (P k) (C k) (A k) now =
          rowFor sid now P C A k := rfl
      rw [hrow, List.map_append]
      have hsing : [rowFor sid now P C A k].map (overwriteBy sid now P C A ks) =
          [rowFor sid now P C A k] := by
        simp only [List.map_cons, List.map_nil]
        rw [overwriteBy_rowFor sid now P C A ks k hk]
      rw [hsing]
      have hmap2 : ps.map (overwriteBy sid now P C A ks) =
          ps.map (overwriteBy sid now P C A (k :: ks)) := by
        apply List.map_congr_left
        intro p hp
        unfold overwriteBy
        rw [List.find?_cons_of_neg (p := fun kk => posMatches sid (some kk.1) kk.2 p)
          (a := k) ks (by simp only [hnomatch p hp]; exact Bool.false_ne_true)]
      have hfilter2 : ks.filter (fun kk => !storeHas sid (ps ++ [rowFor sid now P C A k]) kk) =
          ks.filter (fun kk => !storeHas sid ps kk) := by
        apply List.filter_congr
        intro kk hkk
        have hne : kk ≠ k := fun h => hk (h ▸ hkk)
        have heq2 : storeHas sid (ps ++ [rowFor sid now P C A k]) kk = storeHas sid ps kk := by
          unfold storeHas
          rw [List.any_append]
          have h3 : [rowFor sid now P C A k].any (posMatches sid (some kk.1) kk.2) = false := by
            simp only [List.any_cons, List.any_nil, Bool.or_false]
            rw [Bool.eq_false_iff]
            intro hc
            exact hne ((posMatches_rowFor sid now P C A k kk).mp hc)
          rw [h3, Bool.or_false]
        rw [heq2]
      rw [hmap2, hfilter2]
      have hhead2 : (k :: ks).filter (fun kk => !storeHas sid ps kk) =
          k :: ks.filter (fun kk => !storeHas sid ps kk) := by
        apply List.filter_cons_of_pos
        simp [storeHas, hhasf]
      rw [hhead2, List.map_cons]
      rw [List.append_assoc, List.singleton_append]

/-- The row one engine run writes for one key. -/
def loopRow (db : DB) (sid : SeasonId) (cat? : Option CatId) (now : Time) :
    CatId × Month → OTBPosition :=
  rowFor sid now (effectivePlanned db sid cat?) (consumedLookup db sid cat?)
    (availableOTB db sid cat?)

/-- The position store one engine run leaves behind, starting from `ps`. -/
def loopStore (db : DB) (sid : SeasonId) (cat? : Option CatId) (now : Time)
    (ps : List OTBPosition) : List OTBPosition :=
  storeFold sid now (effectivePlanned db sid cat?) (consumedLookup db sid cat?)
    (availableOTB db sid cat?) (planKeys db sid cat?) ps

theorem recalcLoop_foldl (db : DB) (sid : SeasonId) (cat? : Option CatId) (now : Time) :
    ∀ (ks : List (CatId × Month)) (ps out : List OTBPosition),
      ks.foldl (recalcStep db sid cat? now) (ps, out) =
        (storeFold sid now (effectivePlanned db sid cat?) (consumedLookup db sid cat?)
          (availableOTB db sid cat?) ks ps,
         out ++ ks.map (rowFor sid now (effectivePlanned db sid cat?)
          (consumedLookup db sid cat?) (availableOTB db sid cat?))) := by
  intro ks
  induction ks with
  | nil =>
    intro ps out
    simp [storeFold]
  | cons k ks ih =>
    intro ps out
    rw [List.foldl_cons]
    have hstep : recalcStep db sid cat? now (ps, out) k =
        ((upsert ps sid (some k.1) k.2 (effectivePlanned db sid cat? k)
            (consumedLookup db sid cat? k) (availableOTB db sid cat? k) now).1,
         out ++ [rowFor sid now (effectivePlanned db sid cat?)
            (consumedLookup db sid cat?) (availableOTB db sid cat?) k]) := by
      simp only [recalcStep]
      rw [upsert_snd]
      rfl
    rw [hstep, ih]
    rw [List.append_assoc]
    rfl

theorem recalcLoop_eq (db : DB) (sid : SeasonId) (cat? : Option CatId) (now : Time) :
    recalcLoop db sid cat? now =
      (loopStore db sid cat? now db.positions,
       (planKeys db sid cat?).map (loopRow db sid cat? now)) := by
  unfold recalcLoop loopStore loopRow
  rw [recalcLoop_foldl]
  rw [List.nil_append]

/-- What a successful `recalculate_season` returns: the position store is the
upsert fold over all planned keys, every other table is untouched, and the
returned list is the written row per key. -/
theorem recalculate_season_ok (db : DB) (sid : SeasonId) (now : Time) (db' : DB)
    (out : List OTBPosition)
    (h : recalculate_season db sid now = Except.ok (db', out)) :
    db'.positions = loopStore db sid none now db.positions ∧
    out = (planKeys db sid none).map (loopRow db sid none now) ∧
    db'.seasons = db.seasons ∧ db'.plans = db.plans ∧
    db'.orders = db.orders ∧ db'.adjustments = db.adjustments := by
  unfold recalculate_season at h
  cases hgs : getSeason db sid with
  | error e =>
    rw [hgs] at h
    cases h
  | ok s =>
    rw [hgs] at h
    have h2 : ({ db with positions := (recalcLoop db sid none now).1 },
        (recalcLoop db sid none now).2) = (db', out) := Except.ok.inj h
    rw [recalcLoop_eq] at h2
    injection h2 with h3 h4
    subst h3
    subst h4
    exact ⟨rfl, rfl, rfl, rfl, rfl, rfl⟩

/-- Same characterization for `recalculate_category`. -/
theorem recalculate_category_ok (db : DB) (sid : SeasonId) (cid : CatId) (now : Time)
    (db' : DB) (out : List OTBPosition)
    (h : recalculate_category db sid cid now = Except.ok (db', out)) :
    db'.positions = loopStore db sid (some cid) now db.positions ∧
    out = (planKeys db sid (some cid)).map (loopRow db sid (some cid) now) ∧
    db'.seasons = db.seasons ∧ db'.plans = db.plans ∧
    db'.orders = db.orders ∧ db'.adjustments = db.adjustments := by
  unfold recalculate_category at h
  cases hgs : getSeason db sid with
  | error e =>
    rw [hgs] at h
    cases h
  | ok s =>
    rw [hgs] at h
    have h2 : ({ db with positions := (recalcLoop db sid (some cid) now).1 },
        (recalcLoop db sid (some cid) now).2) = (db', out) := Except.ok.inj h
    rw [recalcLoop_eq] at h2
    injection h2 with h3 h4
    subst h3
    subst h4
    exact ⟨rfl, rfl, rfl, rfl, rfl, rfl⟩

/-- Forward form of a successful season recalculation, for evaluating runs. -/
theorem recalculate_season_run (db : DB) (sid : SeasonId) (now : Time) (s : Season)
    (hs : getSeason db sid = Except.ok s) :
    recalculate_season db sid now =
      Except.ok ({ db with positions := loopStore db sid none now db.positions },
        (planKeys db sid none).map (loopRow db sid none now)) := by
  unfold recalculate_season
  rw [hs, recalcLoop_eq]
  rfl

/-- Forward form of a successful category recalculation. -/
theorem recalculate_category_run (db : DB) (sid : SeasonId) (cid : CatId) (now : Time)
    (s : Season) (hs : getSeason db sid = Except.ok s) :
    recalculate_category db sid cid now =
      Except.ok ({ db with positions := loopStore db sid (some cid) now db.positions },
        (planKeys db sid (some cid)).map (loopRow db sid (some cid) now)) := by
  unfold recalculate_category
  rw [hs, recalcLoop_eq]
  rfl

theorem loopRow_available (db : DB) (sid : SeasonId) (cat? : Option CatId) (now : Time)
    (k : CatId × Month) :
    (loopRow db sid cat? now k).available_otb =
      max ((loopRow db sid cat? now k).planned_otb - (loopRow db sid cat? now k).consumed_otb) 0 :=
  rfl

/-- C2: every position row written by `recalculate_season` or
`recalculate_category` satisfies `available_otb = max(planned_otb -
consumed_otb, 0)` over its stored fields, hence `available_otb ≥ 0`, even
when `consumed_otb > planned_otb`. -/
theorem C2_position_invariant (db : DB) (sid : SeasonId) (cid : CatId) (now : Time)
    (db1 db2 : DB) (out1 out2 : List OTBPosition)
    (h1 : recalculate_season db sid now = Except.ok (db1, out1))
    (h2 : recalculate_category db sid cid now = Except.ok (db2, out2)) :
    (∀ p ∈ out1, p.available_otb = max (p.planned_otb - p.consumed_otb) 0 ∧
      0 ≤ p.available_otb) ∧
    (∀ p ∈ out2, p.available_otb = max (p.planned_otb - p.consumed_otb) 0 ∧
      0 ≤ p.available_otb) := by
  obtain ⟨-, hout1, -⟩ := recalculate_season_ok db sid now db1 out1 h1
  obtain ⟨-, hout2, -⟩ := recalculate_category_ok db sid cid now db2 out2 h2
  constructor
  · intro p hp
    rw [hout1] at hp
    obtain ⟨k, -, rfl⟩ := List.mem_map.mp hp
    exact ⟨loopRow_available db sid none now k, by
      rw [loopRow_available db sid none now k]; exact le_max_right _ _⟩
  · intro p hp
    rw [hout2] at hp
    obtain ⟨k, -, rfl⟩ := List.mem_map.mp hp
    exact ⟨loopRow_available db sid (some cid) now k, by
      rw [loopRow_available db sid (some cid) now k]; exact le_max_right _ _⟩

/-- A season with one category whose recalculated totals are planned 1000,
consumed 850, available 150: the spec's alert-threshold scenario (§8). -/
def Tdb : DB :=
  { seasons := [{ id := 0, status := SeasonStatus.created }],
    plans := [{ season_id := 0, location_id := 0, category_id := 1, month := 1,
                approved_spend_limit := 1000 }],
    orders := [{ season_id := 0, category_id := 1, po_value := 850,
                 status := POStatus.draft, order_date := some { month := 1, day := 5 } }],
    adjustments := [],
    positions := [] }

example : planKeys Tdb 0 none = [(1, 1)] := rfl

example : effectivePlanned Tdb 0 none (1, 1) = 1000 := by
  norm_num [effectivePlanned, plannedLookup, planRowsFor, catFilter, adjIn, adjOut, Tdb]

example : consumedLookup Tdb 0 none (1, 1) = 850 := by
  norm_num [consumedLookup, activeOrdersFor, active_statuses, orderMonth, catFilter, Tdb]

/-- The position the recalculation of `Tdb` writes. -/
def Trow : OTBPosition :=
  { season_id := 0, category_id := some 1, month := 1,
    planned_otb := 1000, consumed_otb := 850, available_otb := 150,
    last_calculated := some 0 }

theorem Tdb_recalc : recalculate_season Tdb 0 0 =
    Except.ok ({ Tdb with positions := [Trow] }, [Trow]) := by
  rw [recalculate_season_run Tdb 0 0 ⟨0, SeasonStatus.created⟩ rfl]
  have hkeys : planKeys Tdb 0 none = [(1, 1)] := rfl
  have heff : effectivePlanned Tdb 0 none (1, 1) = 1000 := by
    norm_num [effectivePlanned, plannedLookup, planRowsFor, catFilter, adjIn, adjOut, Tdb]
  have hcons : consumedLookup Tdb 0 none (1, 1) = 850 := by
    norm_num [consumedLookup, activeOrdersFor, active_statuses, orderMonth, catFilter, Tdb]
  have havail : availableOTB Tdb 0 none (1, 1) = 150 := by
    rw [availableOTB, heff, hcons]
    norm_num
  have hrow : loopRow Tdb 0 none 0 (1, 1) = Trow := by
    rw [loopRow, rowFor, heff, hcons, havail]
    rfl
  have hstore : loopStore Tdb 0 none 0 Tdb.positions = [Trow] := by
    rw [loopStore, hkeys]
    show (upsert [] 0 (some 1) 1 (effectivePlanned Tdb 0 none (1, 1))
      (consumedLookup Tdb 0 none (1, 1)) (availableOTB Tdb 0 none (1, 1)) 0).1 = _
    rw [upsert_fst_neg [] 0 (some 1) 1 (effectivePlanned Tdb 0 none (1, 1))
      (consumedLookup Tdb 0 none (1, 1)) (availableOTB Tdb 0 none (1, 1)) 0 rfl,
      heff, hcons, havail]
    rfl
  rw [hkeys, hstore, List.map_cons, List.map_nil, hrow]

/-- The category-restricted recalculation of `Tdb` writes the same single
row. -/
theorem Tdb_recalc_cat : recalculate_category Tdb 0 1 0 =
    Except.ok ({ Tdb with positions := [Trow] }, [Trow]) := by
  rw [recalculate_category_run Tdb 0 1 0 ⟨0, SeasonStatus.created⟩ rfl]
  have hkeys : planKeys Tdb 0 (some 1) = [(1, 1)] := rfl
  have heff : effectivePlanned Tdb 0 (some 1) (1, 1) = 1000 := by
    norm_num [effectivePlanned, plannedLookup, planRowsFor, catFilter, adjIn, adjOut, Tdb]
  have hcons : consumedLookup Tdb 0 (some 1) (1, 1) = 850 := by
    norm_num +decide [consumedLookup, activeOrdersFor, active_statuses, orderMonth,
      catFilter, Tdb]
  have havail : availableOTB Tdb 0 (some 1) (1, 1) = 150 := by
    rw [availableOTB, heff, hcons]
    norm_num
  have hrow : loopRow Tdb 0 (some 1) 0 (1, 1) = Trow := by
    rw [loopRow, rowFor, heff, hcons, havail]
    rfl
  have hstore : loopStore Tdb 0 (some 1) 0 Tdb.positions = [Trow] := by
    rw [loopStore, hkeys]
    show (upsert [] 0 (some 1) 1 (effectivePlanned Tdb 0 (some 1) (1, 1))
      (consumedLookup Tdb 0 (some 1) (1, 1)) (availableOTB Tdb 0 (some 1) (1, 1)) 0).1 = _
    rw [upsert_fst_neg [] 0 (some 1) 1 (effectivePlanned Tdb 0 (some 1) (1, 1))
      (consumedLookup Tdb 0 (some 1) (1, 1)) (availableOTB Tdb 0 (some 1) (1, 1)) 0 rfl,
      heff, hcons, havail]
    rfl
  rw [hkeys, hstore, List.map_cons, List.map_nil, hrow]

/-- Witness for C2: both runs on the concrete season write the single row
`Trow`, whose stored fields satisfy the clamp invariant. -/
theorem C2_witness :
    (∀ p ∈ [Trow], p.available_otb = max (p.planned_otb - p.consumed_otb) 0 ∧
      0 ≤ p.available_otb) ∧
    (∀ p ∈ [Trow], p.available_otb = max (p.planned_otb - p.consumed_otb) 0 ∧
      0 ≤ p.available_otb) :=
  C2_position_invariant Tdb 0 1 0 { Tdb with positions := [Trow] }
    { Tdb with positions := [Trow] } [Trow] [Trow] Tdb_recalc Tdb_recalc_cat

/-! ### C4: cancelled and undated orders never contribute to consumption -/

/-- A season whose only purchase order is a cancelled one of value 1000
(category 1, month 1), with a plan row for the same bucket. -/
def C4db : DB :=
  { seasons := [{ id := 0, status := SeasonStatus.created }],
    plans := [{ season_id := 0, location_id := 0, category_id := 1, month := 1,
                approved_spend_limit := 500 }],
    orders := [{ season_id := 0, category_id := 1, po_value := 1000,
                 status := POStatus.cancelled, order_date := some { month := 1, day := 3 } }],
    adjustments := [],
    positions := [] }

/-- The position the recalculation of `C4db` writes: consumption 0. -/
def C4row : OTBPosition :=
  { season_id := 0, category_id := some 1, month := 1,
    planned_otb := 500, consumed_otb := 0, available_otb := 500,
    last_calculated := some 0 }

theorem C4_order_pred_false (sid : SeasonId) (cat? : Option CatId) (o : PurchaseOrder)
    (ho : o.status = POStatus.cancelled ∨ o.order_date = none) :
    (o.season_id == sid && active_statuses.contains o.status &&
      o.order_date.isSome && catFilter cat? o.category_id) = false := by
  rcases ho with hs | hd
  · have h1 : active_statuses.contains o.status = false := by
      rw [hs]
      rfl
    rw [h1]
    simp
  · rw [hd]
    simp

/-- C4: a purchase order whose status is cancelled, or whose `order_date` is
null, contributes zero to `consumed_otb` in every `(category, month)` bucket
of the consumption aggregator — adding such an order to any database changes
no bucket — and in particular a season containing only one cancelled order of
value 1000 yields `consumed_otb` 0 for that order's category and month, both
in the aggregator and in the position `recalculate_season` stores. -/
theorem C4_cancelled_undated_excluded (db : DB) (os : List PurchaseOrder)
    (o : PurchaseOrder) (sid : SeasonId) (cat? : Option CatId) (k : CatId × Month)
    (ho : o.status = POStatus.cancelled ∨ o.order_date = none) :
    consumedLookup { db with orders := os ++ [o] } sid cat? k =
      consumedLookup { db with orders := os } sid cat? k ∧
    consumedLookup C4db 0 none (1, 1) = 0 ∧
    recalculate_season C4db 0 0 = Except.ok ({ C4db with positions := [C4row] }, [C4row]) := by
  refine ⟨?_, ?_, ?_⟩
  · have hfilter : activeOrdersFor { db with orders := os ++ [o] } sid cat? =
        activeOrdersFor { db with orders := os } sid cat? := by
      unfold activeOrdersFor
      show (os ++ [o]).filter _ = os.filter _
      rw [List.filter_append]
      have : [o].filter (fun q => q.season_id == sid && active_statuses.contains q.status &&
          q.order_date.isSome && catFilter cat? q.category_id) = [] := by
        simp only [List.filter_cons, List.filter_nil, C4_order_pred_false sid cat? o ho]
        rfl
      rw [this, List.append_nil]
    unfold consumedLookup
    rw [hfilter]
  · norm_num +decide [consumedLookup, activeOrdersFor, active_statuses, orderMonth,
      catFilter, C4db]
  · rw [recalculate_season_run C4db 0 0 ⟨0, SeasonStatus.created⟩ rfl]
    have hkeys : planKeys C4db 0 none = [(1, 1)] := rfl
    have heff : effectivePlanned C4db 0 none (1, 1) = 500 := by
      norm_num [effectivePlanned, plannedLookup, planRowsFor, catFilter, adjIn, adjOut, C4db]
    have hcons : consumedLookup C4db 0 none (1, 1) = 0 := by
      norm_num +decide [consumedLookup, activeOrdersFor, active_statuses, orderMonth,
        catFilter, C4db]
    have havail : availableOTB C4db 0 none (1, 1) = 500 := by
      rw [availableOTB, heff, hcons]
      norm_num
    have hrow : loopRow C4db 0 none 0 (1, 1) = C4row := by
      rw [loopRow, rowFor, heff, hcons, havail]
      rfl
    have hstore : loopStore C4db 0 none 0 C4db.positions = [C4row] := by
      rw [loopStore, hkeys]
      show (upsert [] 0 (some 1) 1 (effectivePlanned C4db 0 none (1, 1))
        (consumedLookup C4db 0 none (1, 1)) (availableOTB C4db 0 none (1, 1)) 0).1 = _
      rw [upsert_fst_neg [] 0 (some 1) 1 (effectivePlanned C4db 0 none (1, 1))
        (consumedLookup C4db 0 none (1, 1)) (availableOTB C4db 0 none (1, 1)) 0 rfl,
        heff, hcons, havail]
      rfl
    rw [hkeys, hstore, List.map_cons, List.map_nil, hrow]

/-- The cancelled order of `C4db`. -/
def C4order : PurchaseOrder :=
  { season_id := 0, category_id := 1, po_value := 1000,
    status := POStatus.cancelled, order_date := some { month := 1, day := 3 } }

/-- Witness for C4 at a concrete cancelled order. -/
theorem C4_witness :
    consumedLookup { C4db with orders := [] ++ [C4order] } 0 none (1, 1) =
      consumedLookup { C4db with orders := [] } 0 none (1, 1) ∧
    consumedLookup C4db 0 none (1, 1) = 0 ∧
    recalculate_season C4db 0 0 = Except.ok ({ C4db with positions := [C4row] }, [C4row]) :=
  C4_cancelled_undated_excluded C4db [] C4order 0 none (1, 1) (Or.inl rfl)

/-! ### C6: the adjustment creation guard -/

/-- C6: when `from_category` is set and the category's total available OTB
across all stored positions of the season is below the requested amount,
`create_adjustment` fails with `InsufficientBudgetError` and inserts no
ledger row (no successful result exists, and an error leaves the database
untouched). -/
theorem C6_creation_guard (db : DB) (data : OTBAdjustmentCreate) (uid : UserId)
    (nid : AdjId) (s : Season) (fc : CatId)
    (hs : getSeason db data.season_id = Except.ok s)
    (hlock : s.status ≠ SeasonStatus.locked)
    (hfc : data.from_category_id = some fc)
    (hlt : ((get_by_season_and_category db.positions data.season_id fc).map
      (fun p => p.available_otb)).sum < data.amount) :
    create_adjustment db data uid nid = Except.error EngineError.insufficientBudget ∧
    ∀ db2 adj, create_adjustment db data uid nid ≠ Except.ok (db2, adj) := by
  have hlockb : (s.status == SeasonStatus.locked) = false :=
    beq_eq_false_iff_ne.mpr hlock
  have h1 : create_adjustment db data uid nid = Except.error EngineError.insufficientBudget := by
    simp only [create_adjustment, hs, ok_bind, hlockb, if_neg Bool.false_ne_true,
      hfc, if_pos hlt]
    rfl
  refine ⟨h1, ?_⟩
  intro db2 adj hc
  rw [h1] at hc
  cases hc

/-- A store holding 300 + 200 = 500 of available OTB for category 1. -/
def C6db : DB :=
  { seasons := [{ id := 0, status := SeasonStatus.otb_uploaded }],
    plans := [], orders := [], adjustments := [],
    positions :=
      [{ season_id := 0, category_id := some 1, month := 1,
         planned_otb := 400, consumed_otb := 100, available_otb := 300,
         last_calculated := some 0 },
       { season_id := 0, category_id := some 1, month := 2,
         planned_otb := 200, consumed_otb := 0, available_otb := 200,
         last_calculated := some 0 }] }

/-- The spec's concrete request: move 600.00 out of a category holding
500.00. -/
def C6data : OTBAdjustmentCreate :=
  { season_id := 0, from_category_id := some 1, to_category_id := some 2,
    amount := 600, reason := "rebalance request" }

/-- Witness for C6 at the spec's concrete scenario. -/
theorem C6_witness :
    create_adjustment C6db C6data 7 3 = Except.error EngineError.insufficientBudget ∧
    ∀ db2 adj, create_adjustment C6db C6data 7 3 ≠ Except.ok (db2, adj) :=
  C6_creation_guard C6db C6data 7 3 ⟨0, SeasonStatus.otb_uploaded⟩ 1 rfl
    (by decide) rfl
    (by norm_num [get_by_season_and_category, C6db, C6data, List.filter_cons])

/-! ### C5: the approval guard and the adjustment state machine -/

/-- The approved version of a ledger row: what `approve_adjustment` writes
(status, approver, timestamp). -/
def approvedVersion (adj : OTBAdjustment) (uid : UserId) (now : Time) : OTBAdjustment :=
  { adj with status := AdjustmentStatus.approved,
             approved_by := some uid,
             approved_at := some now }

/-- The rejected version of a ledger row: what `reject_adjustment` writes. -/
def rejectedVersion (adj : OTBAdjustment) (uid : UserId) (now : Time)
    (rr : String) : OTBAdjustment :=
  { adj with status := AdjustmentStatus.rejected,
             approved_by := some uid,
             approved_at := some now,
             rejection_reason := some rr }

/-- C5: with the ledger row for the id in hand — approving or rejecting a
non-pending adjustment fails with `InvalidStateError` (an error result leaves
every table, including the adjustment's status, approver and timestamps,
untouched and triggers no recalculation); a successful approval starts from a
pending adjustment, flips it to approved with the approver and timestamp
recorded, and has run the `from`/`to` category recalculations (`recalcPair`)
before returning; a successful rejection starts from a pending adjustment,
flips it to rejected, and leaves the position store untouched (no
recalculation). -/
theorem C5_approval_guard (db : DB) (aid : AdjId) (uid : UserId) (rr : String)
    (now : Time) (adj : OTBAdjustment) (h : findAdjustment db aid = some adj) :
    (adj.status ≠ AdjustmentStatus.pending →
      approve_adjustment db aid uid now = Except.error EngineError.invalidState ∧
      reject_adjustment db aid uid rr now = Except.error EngineError.invalidState) ∧
    (∀ db3 adj1, approve_adjustment db aid uid now = Except.ok (db3, adj1) →
      adj.status = AdjustmentStatus.pending ∧
      adj1 = approvedVersion adj uid now ∧
      recalcPair (setAdjustment db aid adj1) adj.season_id adj.from_category_id
        adj.to_category_id now = Except.ok db3) ∧
    (∀ db3 adj1, reject_adjustment db aid uid rr now = Except.ok (db3, adj1) →
      adj.status = AdjustmentStatus.pending ∧
      adj1 = rejectedVersion adj uid now rr ∧
      db3 = setAdjustment db aid adj1 ∧ db3.positions = db.positions) := by
  have herr : adj.status ≠ AdjustmentStatus.pending →
      approve_adjustment db aid uid now = Except.error EngineError.invalidState ∧
      reject_adjustment db aid uid rr now = Except.error EngineError.invalidState := by
    intro hne
    have hbne : (adj.status != AdjustmentStatus.pending) = true := bne_iff_ne.mpr hne
    constructor
    · simp only [approve_adjustment, h, pure_bind_except, hbne, if_pos rfl]
      rfl
    · simp only [reject_adjustment, h, pure_bind_except, hbne, if_pos rfl]
      rfl
  refine ⟨herr, ?_, ?_⟩
  · intro db3 adj1 happ
    have hpend : adj.status = AdjustmentStatus.pending := by
      by_contra hne
      rw [(herr hne).1] at happ
      cases happ
    have hbne : (adj.status != AdjustmentStatus.pending) = false := by
      rw [hpend]
      rfl
    refine ⟨hpend, ?_⟩
    simp only [approve_adjustment, h, pure_bind_except, hbne,
      if_neg Bool.false_ne_true] at happ
    cases hrp : recalcPair (setAdjustment db aid { adj with status := AdjustmentStatus.approved, approved_by := some uid, approved_at := some now }) adj.season_id adj.from_category_id adj.to_category_id now with
    | error e =>
      rw [hrp, error_bind] at happ
      cases happ
    | ok dbr =>
      rw [hrp, ok_bind] at happ
      have h2 := Except.ok.inj happ
      injection h2 with h3 h4
      subst h3
      subst h4
      exact ⟨rfl, hrp⟩
  · intro db3 adj1 hrej
    have hpend : adj.status = AdjustmentStatus.pending := by
      by_contra hne
      rw [(herr hne).2] at hrej
      cases hrej
    have hbne : (adj.status != AdjustmentStatus.pending) = false := by
      rw [hpend]
      rfl
    refine ⟨hpend, ?_⟩
    simp only [reject_adjustment, h, pure_bind_except, hbne,
      if_neg Bool.false_ne_true] at hrej
    have h2 := Except.ok.inj hrej
    injection h2 with h3 h4
    subst h3
    subst h4
    exact ⟨rfl, rfl, rfl⟩

/-- A ledger with one already-approved adjustment (id 1) and one pending
adjustment (id 2). -/
def C5adjA : OTBAdjustment :=
  { id := 1, season_id := 0, from_category_id := some 1, to_category_id := some 2,
    amount := 50, reason := "already done", status := AdjustmentStatus.approved,
    approved_by := some 9, approved_at := some 5, rejection_reason := none,
    created_by := some 4 }

/-- The pending adjustment of the C5 scenario. -/
def C5adjP : OTBAdjustment :=
  { id := 2, season_id := 0, from_category_id := some 1, to_category_id := some 2,
    amount := 25, reason := "pending move", status := AdjustmentStatus.pending,
    approved_by := none, approved_at := none, rejection_reason := none,
    created_by := some 4 }

/-- The database of the C5 scenario. -/
def C5db : DB :=
  { seasons := [{ id := 0, status := SeasonStatus.otb_uploaded }],
    plans := [], orders := [], adjustments := [C5adjA, C5adjP], positions := [] }

/-- Witness for C5: the guard theorem applied to the already-approved
adjustment of a concrete ledger, yielding the `InvalidStateError` failure. -/
theorem C5_witness :
    approve_adjustment C5db 1 7 9 = Except.error EngineError.invalidState ∧
    reject_adjustment C5db 1 7 "second thoughts" 9 =
      Except.error EngineError.invalidState :=
  (C5_approval_guard C5db 1 7 "second thoughts" 9 C5adjA rfl).1 (by decide)

/-! ### C8 and C9: what the loop writes and what it leaves alone -/

theorem overwriteBy_cases (sid : SeasonId) (now : Time) (P C A : CatId × Month → ℚ)
    (ks : List (CatId × Month)) (p : OTBPosition) :
    overwriteBy sid now P C A ks p = p ∨
    ∃ k ∈ ks, overwriteBy sid now P C A ks p = rowFor sid now P C A k ∧
      posMatches sid (some k.1) k.2 p = true := by
  unfold overwriteBy
  cases hf : ks.find? (fun k => posMatches sid (some k.1) k.2 p) with
  | none => exact Or.inl rfl
  | some k =>
    have hps : (fun kk => posMatches sid (some kk.1) kk.2 p) k = true :=
      List.find?_some (p := fun kk => posMatches sid (some kk.1) kk.2 p) (a := k) hf
    exact Or.inr ⟨k, List.mem_of_find?_eq_some hf, rfl, hps⟩

theorem planKeys_cat (db : DB) (sid : SeasonId) (cid : CatId) (k : CatId × Month)
    (hk : k ∈ planKeys db sid (some cid)) : k.1 = cid := by
  rw [planKeys, mem_distinctKeys] at hk
  obtain ⟨p, hp, hpk⟩ := List.mem_map.mp hk
  rw [planRowsFor, List.mem_filter] at hp
  have hcat : (p.category_id == cid) = true := by
    have := hp.2
    rw [Bool.and_eq_true] at this
    exact this.2
  rw [← hpk]
  exact beq_iff_eq.mp hcat

theorem filter_map_eq_filter {α : Type} (f : α → α) (pred : α → Bool)
    (h1 : ∀ p, pred p = true → f p = p) (h2 : ∀ p, pred (f p) = pred p) :
    ∀ l : List α, (l.map f).filter pred = l.filter pred := by
  intro l
  induction l with
  | nil => rfl
  | cons p t ih =>
    rw [List.map_cons, List.filter_cons, List.filter_cons, h2 p]
    by_cases hp : pred p = true
    · rw [hp, if_pos rfl, if_pos rfl, h1 p hp, ih]
    · rw [Bool.eq_false_iff.mpr hp, if_neg Bool.false_ne_true, if_neg Bool.false_ne_true, ih]

/-- C9: a category-targeted recalculation writes only rows of that category:
every stored position whose category is not the targeted one — other
categories and the null category alike, in this or any season — survives
unchanged in every field, and every returned row belongs to the targeted
category. -/
theorem C9_frame (db : DB) (sid : SeasonId) (cid : CatId) (now : Time) (db' : DB)
    (out : List OTBPosition)
    (h : recalculate_category db sid cid now = Except.ok (db', out)) :
    db'.positions.filter (fun p => !(p.category_id == some cid)) =
      db.positions.filter (fun p => !(p.category_id == some cid)) ∧
    ∀ p ∈ out, p.category_id = some cid := by
  obtain ⟨hpos, hout, -⟩ := recalculate_category_ok db sid cid now db' out h
  constructor
  · rw [hpos, loopStore,
      storeFold_char sid now (effectivePlanned db sid (some cid))
        (consumedLookup db sid (some cid)) (availableOTB db sid (some cid))
        (planKeys db sid (some cid)) (nodup_planKeys db sid (some cid)) db.positions,
      List.filter_append]
    have hnews : (((planKeys db sid (some cid)).filter
        (fun k => !storeHas sid db.positions k)).map
          (rowFor sid now (effectivePlanned db sid (some cid))
            (consumedLookup db sid (some cid)) (availableOTB db sid (some cid)))).filter
        (fun p => !(p.category_id == some cid)) = [] := by
      rw [List.filter_eq_nil_iff]
      intro r hr
      obtain ⟨k, hk, rfl⟩ := List.mem_map.mp hr
      have hk1 : k.1 = cid := planKeys_cat db sid cid k (List.mem_filter.mp hk).1
      simp [rowFor, writtenPos, hk1]
    have hmap : ((db.positions.map (overwriteBy sid now (effectivePlanned db sid (some cid))
        (consumedLookup db sid (some cid)) (availableOTB db sid (some cid))
        (planKeys db sid (some cid)))).filter (fun p => !(p.category_id == some cid))) =
        db.positions.filter (fun p => !(p.category_id == some cid)) := by
      apply filter_map_eq_filter
      · intro p hp
        rcases overwriteBy_cases sid now (effectivePlanned db sid (some cid))
          (consumedLookup db sid (some cid)) (availableOTB db sid (some cid))
          (planKeys db sid (some cid)) p with hid | ⟨k, hk, hrw, hm⟩
        · exact hid
        · exfalso
          have hk1 : k.1 = cid := planKeys_cat db sid cid k hk
          have hcat : p.category_id = some cid := by
            have := (posMatches_iff sid (some k.1) k.2 p).mp hm
            rw [hk1] at this
            exact this.2.1
          rw [hcat] at hp
          simp at hp
      · intro p
        rcases overwriteBy_cases sid now (effectivePlanned db sid (some cid))
          (consumedLookup db sid (some cid)) (availableOTB db sid (some cid))
          (planKeys db sid (some cid)) p with hid | ⟨k, hk, hrw, hm⟩
        · rw [hid]
        · have hk1 : k.1 = cid := planKeys_cat db sid cid k hk
          have hcat : p.category_id = some cid := by
            have := (posMatches_iff sid (some k.1) k.2 p).mp hm
            rw [hk1] at this
            exact this.2.1
          rw [hrw, hcat]
          simp [rowFor, writtenPos, hk1]
    rw [hnews, hmap, List.append_nil]
  · intro p hp
    rw [hout] at hp
    obtain ⟨k, hk, rfl⟩ := List.mem_map.mp hp
    have hk1 : k.1 = cid := planKeys_cat db sid cid k hk
    show some k.1 = some cid
    rw [hk1]

/-- C8: a `(category, month)` key with consumption but no plan rows is not
materialized: `recalculate_season` writes no position for it, and when the
store held no row for it before the run it holds none after. -/
theorem C8_consumption_only_not_materialized (db : DB) (sid : SeasonId) (now : Time)
    (db' : DB) (out : List OTBPosition) (k : CatId × Month)
    (h : recalculate_season db sid now = Except.ok (db', out))
    (_hk : k ∈ consumedKeys db sid none) (hnp : k ∉ planKeys db sid none) :
    (∀ p ∈ out, ¬(p.season_id = sid ∧ p.category_id = some k.1 ∧ p.month = k.2)) ∧
    ((∀ p ∈ db.positions, ¬(p.season_id = sid ∧ p.category_id = some k.1 ∧ p.month = k.2)) →
      ∀ p ∈ db'.positions,
        ¬(p.season_id = sid ∧ p.category_id = some k.1 ∧ p.month = k.2)) := by
  obtain ⟨hpos, hout, -⟩ := recalculate_season_ok db sid now db' out h
  have hrow : ∀ kk ∈ planKeys db sid none,
      ¬((loopRow db sid none now kk).season_id = sid ∧
        (loopRow db sid none now kk).category_id = some k.1 ∧
        (loopRow db sid none now kk).month = k.2) := by
    intro kk hkk hc
    have : posMatches sid (some k.1) k.2 (loopRow db sid none now kk) = true :=
      (posMatches_iff sid (some k.1) k.2 _).mpr hc
    have hkeq : k = kk := (posMatches_rowFor sid now _ _ _ kk k).mp this
    exact hnp (hkeq ▸ hkk)
  constructor
  · intro p hp
    rw [hout] at hp
    obtain ⟨kk, hkk, rfl⟩ := List.mem_map.mp hp
    exact hrow kk hkk
  · intro hinit p hp
    rw [hpos, loopStore,
      storeFold_char sid now (effectivePlanned db sid none) (consumedLookup db sid none)
        (availableOTB db sid none) (planKeys db sid none) (nodup_planKeys db sid none)
        db.positions] at hp
    rcases List.mem_append.mp hp with hp1 | hp2
    · obtain ⟨q, hq, rfl⟩ := List.mem_map.mp hp1
      rcases overwriteBy_cases sid now (effectivePlanned db sid none)
        (consumedLookup db sid none) (availableOTB db sid none)
        (planKeys db sid none) q with hid | ⟨kk, hkk, hrw, -⟩
      · rw [hid]
        exact hinit q hq
      · rw [hrw]
        exact hrow kk hkk
    · obtain ⟨kk, hkk, rfl⟩ := List.mem_map.mp hp2
      exact hrow kk (List.mem_filter.mp hkk).1

/-- A season with a plan only for category 1 but consumption only in
category 2. -/
def C8db : DB :=
  { seasons := [{ id := 0, status := SeasonStatus.created }],
    plans := [{ season_id := 0, location_id := 0, category_id := 1, month := 1,
                approved_spend_limit := 400 }],
    orders := [{ season_id := 0, category_id := 2, po_value := 700,
                 status := POStatus.draft, order_date := some { month := 1, day := 2 } }],
    adjustments := [],
    positions := [] }

/-- The single position the recalculation of `C8db` writes (category 1). -/
def C8row : OTBPosition :=
  { season_id := 0, category_id := some 1, month := 1,
    planned_otb := 400, consumed_otb := 0, available_otb := 400,
    last_calculated := some 0 }

theorem C8db_recalc : recalculate_season C8db 0 0 =
    Except.ok ({ C8db with positions := [C8row] }, [C8row]) := by
  rw [recalculate_season_run C8db 0 0 ⟨0, SeasonStatus.created⟩ rfl]
  have hkeys : planKeys C8db 0 none = [(1, 1)] := rfl
  have heff : effectivePlanned C8db 0 none (1, 1) = 400 := by
    norm_num [effectivePlanned, plannedLookup, planRowsFor, catFilter, adjIn, adjOut, C8db]
  have hcons : consumedLookup C8db 0 none (1, 1) = 0 := by
    norm_num +decide [consumedLookup, activeOrdersFor, active_statuses, orderMonth,
      catFilter, C8db]
  have havail : availableOTB C8db 0 none (1, 1) = 400 := by
    rw [availableOTB, heff, hcons]
    norm_num
  have hrow : loopRow C8db 0 none 0 (1, 1) = C8row := by
    rw [loopRow, rowFor, heff, hcons, havail]
    rfl
  have hstore : loopStore C8db 0 none 0 C8db.positions = [C8row] := by
    rw [loopStore, hkeys]
    show (upsert [] 0 (some 1) 1 (effectivePlanned C8db 0 none (1, 1))
      (consumedLookup C8db 0 none (1, 1)) (availableOTB C8db 0 none (1, 1)) 0).1 = _
    rw [upsert_fst_neg [] 0 (some 1) 1 (effectivePlanned C8db 0 none (1, 1))
      (consumedLookup C8db 0 none (1, 1)) (availableOTB C8db 0 none (1, 1)) 0 rfl,
      heff, hcons, havail]
    rfl
  rw [hkeys, hstore, List.map_cons, List.map_nil, hrow]

/-- Witness for C8: the consumption-only bucket `(2, 1)` of `C8db` gets no
position row. -/
theorem C8_witness :
    (∀ p ∈ [C8row], ¬(p.season_id = 0 ∧ p.category_id = some 2 ∧ p.month = 1)) ∧
    ((∀ p ∈ C8db.positions, ¬(p.season_id = 0 ∧ p.category_id = some 2 ∧ p.month = 1)) →
      ∀ p ∈ ({ C8db with positions := [C8row] } : DB).positions,
        ¬(p.season_id = 0 ∧ p.category_id = some 2 ∧ p.month = 1)) :=
  C8_consumption_only_not_materialized C8db 0 0 { C8db with positions := [C8row] }
    [C8row] (2, 1) C8db_recalc (by decide) (by decide)

/-- A season with a plan for category 1 and a stale stored position of
category 2. -/
def C9stale : OTBPosition :=
  { season_id := 0, category_id := some 2, month := 1,
    planned_otb := 999, consumed_otb := 1, available_otb := 998,
    last_calculated := some 0 }

/-- The database of the C9 scenario. -/
def C9db : DB :=
  { seasons := [{ id := 0, status := SeasonStatus.created }],
    plans := [{ season_id := 0, location_id := 0, category_id := 1, month := 1,
                approved_spend_limit := 400 }],
    orders := [], adjustments := [],
    positions := [C9stale] }

/-- The position `recalculate_category C9db 0 1` writes. -/
def C9new : OTBPosition :=
  { season_id := 0, category_id := some 1, month := 1,
    planned_otb := 400, consumed_otb := 0, available_otb := 400,
    last_calculated := some 0 }

theorem C9db_recalc : recalculate_category C9db 0 1 0 =
    Except.ok ({ C9db with positions := [C9stale, C9new] }, [C9new]) := by
  rw [recalculate_category_run C9db 0 1 0 ⟨0, SeasonStatus.created⟩ rfl]
  have hkeys : planKeys C9db 0 (some 1) = [(1, 1)] := rfl
  have heff : effectivePlanned C9db 0 (some 1) (1, 1) = 400 := by
    norm_num [effectivePlanned, plannedLookup, planRowsFor, catFilter, adjIn, adjOut, C9db]
  have hcons : consumedLookup C9db 0 (some 1) (1, 1) = 0 := by
    norm_num +decide [consumedLookup, activeOrdersFor, active_statuses, orderMonth,
      catFilter, C9db]
  have havail : availableOTB C9db 0 (some 1) (1, 1) = 400 := by
    rw [availableOTB, heff, hcons]
    norm_num
  have hrow : loopRow C9db 0 (some 1) 0 (1, 1) = C9new := by
    rw [loopRow, rowFor, heff, hcons, havail]
    rfl
  have hstore : loopStore C9db 0 (some 1) 0 C9db.positions = [C9stale, C9new] := by
    rw [loopStore, hkeys]
    show (upsert [C9stale] 0 (some 1) 1 (effectivePlanned C9db 0 (some 1) (1, 1))
      (consumedLookup C9db 0 (some 1) (1, 1)) (availableOTB C9db 0 (some 1) (1, 1)) 0).1 = _
    rw [upsert_fst_neg [C9stale] 0 (some 1) 1 (effectivePlanned C9db 0 (some 1) (1, 1))
      (consumedLookup C9db 0 (some 1) (1, 1)) (availableOTB C9db 0 (some 1) (1, 1)) 0 rfl,
      heff, hcons, havail]
    rfl
  rw [hkeys, hstore, List.map_cons, List.map_nil, hrow]

/-- Witness for C9: recalculating category 1 leaves the stale category-2 row
untouched and returns only category-1 rows. -/
theorem C9_witness :
    ({ C9db with positions := [C9stale, C9new] } : DB).positions.filter
        (fun p => !(p.category_id == some 1)) =
      C9db.positions.filter (fun p => !(p.category_id == some 1)) ∧
    ∀ p ∈ [C9new], p.category_id = some 1 :=
  C9_frame C9db 0 1 0 { C9db with positions := [C9stale, C9new] } [C9new] C9db_recalc

/-! ### C7 and C10: alert thresholds -/

/-- Forward form of a successful `get_alerts`. -/
theorem get_alerts_run (db : DB) (sid : SeasonId) (now : Time) (s : Season)
    (db1 : DB) (out : List OTBPosition)
    (hs : getSeason db sid = Except.ok s)
    (hr : recalculate_season db sid now = Except.ok (db1, out)) :
    get_alerts db sid now = Except.ok (db1,
      ((get_category_summary db1.positions sid).map
        (alertsForCategory (avgPlanned (get_category_summary db1.positions sid)))).flatten) := by
  unfold get_alerts
  rw [hs, hr]
  rfl

/-- Elimination form of a successful `get_alerts`: the returned database is
the recalculated one and the alerts are the per-category-summary lists. -/
theorem get_alerts_ok (db : DB) (sid : SeasonId) (now : Time) (db1 : DB)
    (alerts : List OTBAlert)
    (h : get_alerts db sid now = Except.ok (db1, alerts)) :
    (∃ out, recalculate_season db sid now = Except.ok (db1, out)) ∧
    alerts = ((get_category_summary db1.positions sid).map
      (alertsForCategory (avgPlanned (get_category_summary db1.positions sid)))).flatten := by
  unfold get_alerts at h
  cases hgs : getSeason db sid with
  | error e =>
    rw [hgs] at h
    cases h
  | ok s =>
    rw [hgs, ok_bind] at h
    cases hr : recalculate_season db sid now with
    | error e =>
      rw [hr, error_bind] at h
      cases h
    | ok r =>
      obtain ⟨rdb, rout⟩ := r
      rw [hr, ok_bind] at h
      have h2 := Except.ok.inj h
      injection h2 with h3 h4
      subst h3
      subst h4
      exact ⟨⟨rout, rfl⟩, rfl⟩

/-- Every alert emitted for a summary row carries that row's category. -/
theorem alertsForCategory_category (avg : ℚ) (cs : CategorySummary) (a : OTBAlert)
    (ha : a ∈ alertsForCategory avg cs) : a.category_id = cs.category_id := by
  unfold alertsForCategory at ha
  by_cases htp : cs.total_planned ≤ 0
  · rw [if_pos htp] at ha
    cases ha
  · rw [if_neg htp] at ha
    rcases List.mem_append.mp ha with h1 | h4
    · rcases List.mem_append.mp h1 with h2 | h3
      · rcases List.mem_append.mp h2 with h5 | h6
        · split at h5 <;> simp_all
        · split at h6 <;> simp_all
      · split at h3 <;> simp_all
    · split at h4 <;> simp_all

/-- Two summary rows of one season with the same category are the same row:
each row is a function of its category key alone. -/
theorem get_category_summary_inj (ps : List OTBPosition) (sid : SeasonId)
    (cs1 cs2 : CategorySummary)
    (h1 : cs1 ∈ get_category_summary ps sid) (h2 : cs2 ∈ get_category_summary ps sid)
    (hcat : cs1.category_id = cs2.category_id) : cs1 = cs2 := by
  obtain ⟨c1, -, rfl⟩ := List.mem_map.mp h1
  obtain ⟨c2, -, rfl⟩ := List.mem_map.mp h2
  have : c1 = c2 := hcat
  rw [this]

/-- Membership in the alert list, in terms of the summary rows. -/
theorem mem_alerts_iff (cat_summary : List CategorySummary) (avg : ℚ) (a : OTBAlert) :
    a ∈ (cat_summary.map (alertsForCategory avg)).flatten ↔
      ∃ cs ∈ cat_summary, a ∈ alertsForCategory avg cs := by
  rw [List.mem_flatten]
  constructor
  · rintro ⟨l, hl, hal⟩
    obtain ⟨cs, hcs, rfl⟩ := List.mem_map.mp hl
    exact ⟨cs, hcs, hal⟩
  · rintro ⟨cs, hcs, hal⟩
    exact ⟨alertsForCategory avg cs, List.mem_map.mpr ⟨cs, hcs, rfl⟩, hal⟩

/-- The summary row of the spec's alert-threshold scenario. -/
def C7summary (C : CatId) : CategorySummary :=
  { category_id := some C, total_planned := 1000, total_consumed := 850,
    total_available := 150 }

/-- The low-OTB alert the scenario's category raises. -/
def C7lowAlert (C : CatId) : OTBAlert :=
  { alert_type := "low_otb", severity := "warning", category_id := some C,
    current_value := 150,
    threshold_value := round2 (1000 * DEFAULT_LOW_OTB_THRESHOLD / 100) }

/-- C7: for a season whose recalculated summary gives category C planned
1000.00, consumed 850.00 and available 150.00, `get_alerts` returns a
low-OTB warning for C (150 is below the 20% threshold of 200) and no
OTB-exceeded alert for C (850 is not greater than 1000). -/
theorem C7_alert_thresholds (db : DB) (sid : SeasonId) (now : Time) (db1 : DB)
    (alerts : List OTBAlert) (C : CatId)
    (h : get_alerts db sid now = Except.ok (db1, alerts))
    (hcs : C7summary C ∈ get_category_summary db1.positions sid) :
    (∃ a ∈ alerts, a.alert_type = "low_otb" ∧ a.severity = "warning" ∧
      a.category_id = some C) ∧
    (∀ a ∈ alerts, a.category_id = some C → a.alert_type ≠ "otb_exceeded") := by
  obtain ⟨-, halerts⟩ := get_alerts_ok db sid now db1 alerts h
  set avg := avgPlanned (get_category_summary db1.positions sid) with havg
  constructor
  · refine ⟨C7lowAlert C, ?_, rfl, rfl, rfl⟩
    rw [halerts, mem_alerts_iff]
    refine ⟨C7summary C, hcs, ?_⟩
    unfold alertsForCategory C7summary
    rw [if_neg (by norm_num)]
    apply List.mem_append.mpr
    apply Or.inl
    apply List.mem_append.mpr
    apply Or.inl
    apply List.mem_append.mpr
    apply Or.inl
    rw [if_pos (by norm_num [DEFAULT_LOW_OTB_THRESHOLD])]
    exact List.mem_singleton.mpr rfl
  · intro a ha hacat
    rw [halerts, mem_alerts_iff] at ha
    obtain ⟨cs, hcsmem, hamem⟩ := ha
    have hcat2 : cs.category_id = some C :=
      (alertsForCategory_category avg cs a hamem) ▸ hacat
    have hcseq : cs = C7summary C :=
      get_category_summary_inj db1.positions sid cs (C7summary C) hcsmem hcs
        (by rw [hcat2]; rfl)
    rw [hcseq] at hamem
    unfold alertsForCategory C7summary at hamem
    rw [if_neg (by norm_num)] at hamem
    intro htype
    rcases List.mem_append.mp hamem with h1 | h4
    · rcases List.mem_append.mp h1 with h2 | h3
      · rcases List.mem_append.mp h2 with h5 | h6
        · split at h5
          · rw [List.mem_singleton] at h5
            rw [h5] at htype
            simp at htype
          · cases h5
        · have : ¬((850 : ℚ) > 1000) := by norm_num
          rw [if_neg this] at h6
          cases h6
      · split at h3
        · rw [List.mem_singleton] at h3
          rw [h3] at htype
          simp at htype
        · cases h3
    · split at h4
      · rw [List.mem_singleton] at h4
        rw [h4] at htype
        simp at htype
      · cases h4

theorem roundHalfEven_intCast (n : ℤ) : roundHalfEven (n : ℚ) = n := by
  unfold roundHalfEven
  rw [Int.fract_intCast, Int.floor_intCast]
  norm_num

theorem round2_intCast (n : ℤ) : round2 ((n : ℤ) : ℚ) = n := by
  unfold round2
  have h1 : ((n : ℚ) * 100) = ((100 * n : ℤ) : ℚ) := by
    push_cast
    ring
  rw [h1, roundHalfEven_intCast]
  push_cast
  field_simp

theorem round2_85 : round2 (85 : ℚ) = 85 := by
  have := round2_intCast 85
  push_cast at this
  exact this

theorem round2_200 : round2 (200 : ℚ) = 200 := by
  have := round2_intCast 200
  push_cast at this
  exact this

/-- The category summary of the recalculated `Tdb`. -/
theorem Tdb_summary : get_category_summary [Trow] 0 = [C7summary 1] := by
  have hkeys : categoryKeys [Trow] 0 = [some 1] := rfl
  unfold get_category_summary
  rw [hkeys, List.map_cons, List.map_nil]
  have hrows : categoryRows [Trow] 0 (some 1) = [Trow] := rfl
  rw [hrows]
  norm_num [Trow, C7summary]

/-- The low-OTB alert the `Tdb` scenario raises. -/
def TlowAlert : OTBAlert :=
  { alert_type := "low_otb", severity := "warning", category_id := some 1,
    current_value := 150, threshold_value := 200 }

/-- The alerts of the `Tdb` scenario: exactly the low-OTB warning. -/
theorem Tdb_afc : alertsForCategory 1000 (C7summary 1) = [TlowAlert] := by
  have hpct : round2 ((850 : ℚ) / 1000 * 100) = 85 := by
    rw [show (850 : ℚ) / 1000 * 100 = 85 by norm_num]
    exact round2_85
  have hthr : round2 ((1000 : ℚ) * DEFAULT_LOW_OTB_THRESHOLD / 100) = 200 := by
    rw [show (1000 : ℚ) * DEFAULT_LOW_OTB_THRESHOLD / 100 = 200 by
      norm_num [DEFAULT_LOW_OTB_THRESHOLD]]
    exact round2_200
  have h1 : ¬((1000 : ℚ) ≤ 0) := by norm_num
  have h2 : (150 : ℚ) < 1000 * (DEFAULT_LOW_OTB_THRESHOLD / 100) := by
    norm_num [DEFAULT_LOW_OTB_THRESHOLD]
  have h3 : ¬((850 : ℚ) > 1000) := by norm_num
  have h4 : ¬(round2 ((850 : ℚ) / 1000 * 100) < DEFAULT_UNDERUTILIZED_THRESHOLD) := by
    rw [hpct]
    norm_num [DEFAULT_UNDERUTILIZED_THRESHOLD]
  have h5 : (decide ((1000 : ℚ) > 0) &&
      decide (DEFAULT_IMBALANCE_THRESHOLD < |(1000 : ℚ) - 1000| / 1000 * 100)) = false := by
    have : ¬(DEFAULT_IMBALANCE_THRESHOLD < |(1000 : ℚ) - 1000| / 1000 * 100) := by
      rw [sub_self, abs_zero]
      norm_num [DEFAULT_IMBALANCE_THRESHOLD]
    rw [decide_eq_false this, Bool.and_false]
  simp only [alertsForCategory, C7summary, if_neg h1, if_pos h2, if_neg h3, if_neg h4, h5,
    Bool.false_eq_true, if_false, List.append_nil, List.nil_append, hthr]
  rfl

/-- `get_alerts` on the `Tdb` scenario: exactly one low-OTB warning. -/
theorem Tdb_alerts : get_alerts Tdb 0 0 =
    Except.ok ({ Tdb with positions := [Trow] }, [TlowAlert]) := by
  rw [get_alerts_run Tdb 0 0 ⟨0, SeasonStatus.created⟩ { Tdb with positions := [Trow] }
    [Trow] rfl Tdb_recalc]
  have hsum : get_category_summary ({ Tdb with positions := [Trow] } : DB).positions 0 =
      [C7summary 1] := Tdb_summary
  rw [hsum]
  have havg : avgPlanned [C7summary 1] = 1000 := by
    unfold avgPlanned C7summary
    rw [List.filter_cons, List.filter_nil]
    norm_num
  rw [havg, List.map_cons, List.map_nil, Tdb_afc]
  rfl

/-- Witness for C7: the `Tdb` scenario yields the low-OTB warning for
category 1 and no exceeded alert. -/
theorem C7_witness :
    (∃ a ∈ [TlowAlert], a.alert_type = "low_otb" ∧ a.severity = "warning" ∧
      a.category_id = some 1) ∧
    (∀ a ∈ [TlowAlert], a.category_id = some 1 → a.alert_type ≠ "otb_exceeded") :=
  C7_alert_thresholds Tdb 0 0 { Tdb with positions := [Trow] } [TlowAlert] 1 Tdb_alerts
    (by rw [show get_category_summary ({ Tdb with positions := [Trow] } : DB).positions 0 =
      [C7summary 1] from Tdb_summary]; exact List.mem_singleton.mpr rfl)

/-- Every row of the store after a recalculation satisfies the clamp
invariant, provided every pre-existing row did. -/
theorem loopStore_invariant (db : DB) (sid : SeasonId) (cat? : Option CatId) (now : Time)
    (ps : List OTBPosition)
    (hinv : ∀ p ∈ ps, p.available_otb = max (p.planned_otb - p.consumed_otb) 0) :
    ∀ p ∈ loopStore db sid cat? now ps,
      p.available_otb = max (p.planned_otb - p.consumed_otb) 0 := by
  intro p hp
  rw [loopStore, storeFold_char sid now (effectivePlanned db sid cat?)
    (consumedLookup db sid cat?) (availableOTB db sid cat?) (planKeys db sid cat?)
    (nodup_planKeys db sid cat?) ps] at hp
  rcases List.mem_append.mp hp with h1 | h2
  · obtain ⟨q, hq, rfl⟩ := List.mem_map.mp h1
    rcases overwriteBy_cases sid now (effectivePlanned db sid cat?)
      (consumedLookup db sid cat?) (availableOTB db sid cat?)
      (planKeys db sid cat?) q with hid | ⟨k, -, hrw, -⟩
    · rw [hid]
      exact hinv q hq
    · rw [hrw]
      rfl
  · obtain ⟨k, -, rfl⟩ := List.mem_map.mp h2
    rfl

theorem sum_triple_bound (l : List OTBPosition)
    (h : ∀ p ∈ l, p.planned_otb - p.consumed_otb ≤ p.available_otb) :
    (l.map (fun p => p.planned_otb)).sum - (l.map (fun p => p.consumed_otb)).sum ≤
      (l.map (fun p => p.available_otb)).sum := by
  induction l with
  | nil => simp
  | cons p t ih =>
    simp only [List.map_cons, List.sum_cons]
    have h1 := h p (List.mem_cons_self p t)
    have h2 := ih (fun q hq => h q (List.mem_cons_of_mem p hq))
    linarith

/-- In a store satisfying the clamp invariant, every category summary row has
total available at least total planned minus total consumed. -/
theorem summary_bound (ps : List OTBPosition) (sid : SeasonId)
    (hinv : ∀ p ∈ ps, p.available_otb = max (p.planned_otb - p.consumed_otb) 0)
    (cs : CategorySummary) (hcs : cs ∈ get_category_summary ps sid) :
    cs.total_planned - cs.total_consumed ≤ cs.total_available := by
  obtain ⟨c, -, rfl⟩ := List.mem_map.mp hcs
  apply sum_triple_bound
  intro p hp
  have hmem : p ∈ ps := (List.mem_filter.mp hp).1
  rw [hinv p hmem]
  exact le_max_left _ _

theorem roundHalfEven_ge (q : ℚ) : q - 1/2 ≤ (roundHalfEven q : ℚ) := by
  unfold roundHalfEven
  have hfr : q - Int.fract q = (⌊q⌋ : ℚ) := by
    rw [Int.self_sub_fract]
  have hlt1 : Int.fract q < 1 := Int.fract_lt_one q
  by_cases h1 : Int.fract q < 1/2
  · rw [if_pos h1]
    linarith
  · rw [if_neg h1]
    by_cases h2 : 1/2 < Int.fract q
    · rw [if_pos h2]
      push_cast
      linarith
    · rw [if_neg h2]
      have hfr2 : Int.fract q = 1/2 := le_antisymm (not_lt.mp h2) (not_lt.mp h1)
      by_cases h3 : ⌊q⌋ % 2 = 0
      · rw [if_pos h3]
        linarith
      · rw [if_neg h3]
        push_cast
        linarith

theorem round2_ge (q : ℚ) : q - 1/200 ≤ round2 q := by
  have h := roundHalfEven_ge (q * 100)
  have h2 : (q * 100 - 1/2) / 100 ≤ (roundHalfEven (q * 100) : ℚ) / 100 :=
    (div_le_div_iff_of_pos_right (by norm_num : (0:ℚ) < 100)).mpr h
  have h3 : (q * 100 - 1/2) / 100 = q - 1/200 := by ring
  rw [round2]
  linarith

/-- Membership in the low-OTB branch: an alert typed `low_otb` for a summary
row means the branch condition held (and the row had positive planned). -/
theorem alertsFor_low_elim (avg : ℚ) (cs : CategorySummary) (a : OTBAlert)
    (ha : a ∈ alertsForCategory avg cs) (ht : a.alert_type = "low_otb") :
    cs.total_available < cs.total_planned * (DEFAULT_LOW_OTB_THRESHOLD / 100) ∧
    0 < cs.total_planned := by
  unfold alertsForCategory at ha
  by_cases htp : cs.total_planned ≤ 0
  · rw [if_pos htp] at ha
    cases ha
  · rw [if_neg htp] at ha
    refine ⟨?_, lt_of_not_le htp⟩
    rcases List.mem_append.mp ha with h1 | h4
    · rcases List.mem_append.mp h1 with h2 | h3
      · rcases List.mem_append.mp h2 with h5 | h6
        · by_cases hc : cs.total_available < cs.total_planned * (DEFAULT_LOW_OTB_THRESHOLD / 100)
          · exact hc
          · rw [if_neg hc] at h5
            cases h5
        · split at h6
          · rw [List.mem_singleton] at h6
            rw [h6] at ht
            simp at ht
          · cases h6
      · split at h3
        · rw [List.mem_singleton] at h3
          rw [h3] at ht
          simp at ht
        · cases h3
    · split at h4
      · rw [List.mem_singleton] at h4
        rw [h4] at ht
        simp at ht
      · cases h4

/-- Membership in the underutilized branch: an alert typed `underutilized`
for a summary row means its condition held. -/
theorem alertsFor_under_elim (avg : ℚ) (cs : CategorySummary) (b : OTBAlert)
    (hb : b ∈ alertsForCategory avg cs) (ht : b.alert_type = "underutilized") :
    round2 (cs.total_consumed / cs.total_planned * 100) <
      DEFAULT_UNDERUTILIZED_THRESHOLD := by
  unfold alertsForCategory at hb
  by_cases htp : cs.total_planned ≤ 0
  · rw [if_pos htp] at hb
    cases hb
  · rw [if_neg htp] at hb
    rcases List.mem_append.mp hb with h1 | h4
    · rcases List.mem_append.mp h1 with h2 | h3
      · rcases List.mem_append.mp h2 with h5 | h6
        · split at h5
          · rw [List.mem_singleton] at h5
            rw [h5] at ht
            simp at ht
          · cases h5
        · split at h6
          · rw [List.mem_singleton] at h6
            rw [h6] at ht
            simp at ht
          · cases h6
      · by_cases hc : round2 (cs.total_consumed / cs.total_planned * 100) <
            DEFAULT_UNDERUTILIZED_THRESHOLD
        · exact hc
        · rw [if_neg hc] at h3
          cases h3
    · split at h4
      · rw [List.mem_singleton] at h4
        rw [h4] at ht
        simp at ht
      · cases h4

/-- C10: over a store satisfying the clamp invariant, `get_alerts` never
returns both a low-OTB and an underutilized alert for the same category:
available below 20% of planned forces consumption above 80%, far above the
50% underutilization threshold. -/
theorem C10_low_excludes_underutilized (db : DB) (sid : SeasonId) (now : Time)
    (db1 : DB) (alerts : List OTBAlert) (a b : OTBAlert)
    (hinv : ∀ p ∈ db.positions, p.available_otb = max (p.planned_otb - p.consumed_otb) 0)
    (h : get_alerts db sid now = Except.ok (db1, alerts))
    (ha : a ∈ alerts) (hb : b ∈ alerts) (hcat : a.category_id = b.category_id)
    (halow : a.alert_type = "low_otb") : b.alert_type ≠ "underutilized" := by
  intro hbunder
  obtain ⟨⟨out, hr⟩, halerts⟩ := get_alerts_ok db sid now db1 alerts h
  obtain ⟨hpos, -, -⟩ := recalculate_season_ok db sid now db1 out hr
  have hinv1 : ∀ p ∈ db1.positions,
      p.available_otb = max (p.planned_otb - p.consumed_otb) 0 := by
    rw [hpos]
    exact loopStore_invariant db sid none now db.positions hinv
  rw [halerts, mem_alerts_iff] at ha hb
  obtain ⟨csa, hcsa, hamem⟩ := ha
  obtain ⟨csb, hcsb, hbmem⟩ := hb
  have hcats : csa.category_id = csb.category_id := by
    rw [← alertsForCategory_category _ _ _ hamem, ← alertsForCategory_category _ _ _ hbmem]
    exact hcat
  have hcseq : csa = csb :=
    get_category_summary_inj db1.positions sid csa csb hcsa hcsb hcats
  subst hcseq
  obtain ⟨hlow, htp⟩ := alertsFor_low_elim _ csa a hamem halow
  have hunder := alertsFor_under_elim _ csa b hbmem hbunder
  have hbound := summary_bound db1.positions sid hinv1 csa hcsa
  set tp := csa.total_planned
  set tc := csa.total_consumed
  set ta := csa.total_available
  have hth : tp * (DEFAULT_LOW_OTB_THRESHOLD / 100) = tp / 5 := by
    rw [DEFAULT_LOW_OTB_THRESHOLD]
    ring
  rw [hth] at hlow
  have htc : tp * (4/5) < tc := by
    linarith
  have hratio : (80 : ℚ) < tc / tp * 100 := by
    have h2 : (4 : ℚ)/5 < tc / tp := by
      rw [lt_div_iff₀ htp]
      linarith
    have h3 : (80 : ℚ) = (4/5) * 100 := by norm_num
    linarith
  have hpct : (50 : ℚ) ≤ round2 (tc / tp * 100) := by
    have := round2_ge (tc / tp * 100)
    linarith
  rw [DEFAULT_UNDERUTILIZED_THRESHOLD] at hunder
  linarith

/-- Witness for C10 applied at the `Tdb` scenario: its single low-OTB alert,
taken for both alert arguments, is not an underutilized alert. -/
theorem C10_witness : TlowAlert.alert_type ≠ "underutilized" :=
  C10_low_excludes_underutilized Tdb 0 0 { Tdb with positions := [Trow] } [TlowAlert]
    TlowAlert TlowAlert (fun p hp => absurd hp (List.not_mem_nil p)) Tdb_alerts
    (List.mem_singleton.mpr rfl) (List.mem_singleton.mpr rfl) rfl rfl

/-! ### C3: idempotence of recalculation, up to the write timestamp -/

/-- A position with its write timestamp blanked, for comparing two runs'
rows field by field apart from `last_calculated`. -/
def scrubTime (p : OTBPosition) : OTBPosition :=
  { p with last_calculated := none }

theorem planKeys_congr (db1 db : DB) (hp : db1.plans = db.plans) :
    planKeys db1 = planKeys db := by
  funext sid cat?
  unfold planKeys planRowsFor
  rw [hp]

theorem effectivePlanned_congr (db1 db : DB) (hp : db1.plans = db.plans)
    (ha : db1.adjustments = db.adjustments) :
    effectivePlanned db1 = effectivePlanned db := by
  funext sid cat? k
  unfold effectivePlanned plannedLookup planRowsFor adjIn adjOut
  rw [hp, ha]

theorem consumedLookup_congr (db1 db : DB) (ho : db1.orders = db.orders) :
    consumedLookup db1 = consumedLookup db := by
  funext sid cat? k
  unfold consumedLookup activeOrdersFor
  rw [ho]

theorem availableOTB_congr (db1 db : DB) (hp : db1.plans = db.plans)
    (ho : db1.orders = db.orders) (ha : db1.adjustments = db.adjustments) :
    availableOTB db1 = availableOTB db := by
  funext sid cat? k
  unfold availableOTB
  rw [effectivePlanned_congr db1 db hp ha, consumedLookup_congr db1 db ho]

theorem posMatches_of_rowFor_key (sid : SeasonId) (now : Time)
    (P C A : CatId × Month → ℚ) (k kk : CatId × Month) (p : OTBPosition)
    (hm : posMatches sid (some k.1) k.2 p = true) :
    posMatches sid (some kk.1) kk.2 (rowFor sid now P C A k) =
      posMatches sid (some kk.1) kk.2 p := by
  obtain ⟨h1, h2, h3⟩ := (posMatches_iff sid (some k.1) k.2 p).mp hm
  unfold posMatches rowFor writtenPos
  simp only [h1, h2, h3]

theorem storeHas_iff (sid : SeasonId) (ps : List OTBPosition) (k : CatId × Month) :
    storeHas sid ps k = true ↔
      ∃ p, p ∈ ps ∧ posMatches sid (some k.1) k.2 p = true := by
  unfold storeHas
  exact List.any_eq_true

/-- A stronger case split on `overwriteBy`: the untouched case also records
that no written key matches the row. -/
theorem overwriteBy_cases2 (sid : SeasonId) (now : Time) (P C A : CatId × Month → ℚ)
    (ks : List (CatId × Month)) (p : OTBPosition) :
    ((∀ k ∈ ks, ¬posMatches sid (some k.1) k.2 p = true) ∧
      overwriteBy sid now P C A ks p = p) ∨
    ∃ k ∈ ks, overwriteBy sid now P C A ks p = rowFor sid now P C A k ∧
      posMatches sid (some k.1) k.2 p = true := by
  unfold overwriteBy
  cases hf : ks.find? (fun k => posMatches sid (some k.1) k.2 p) with
  | none =>
    refine Or.inl ⟨?_, rfl⟩
    intro k hk
    have := List.find?_eq_none.mp hf k hk
    simpa using this
  | some k =>
    have hps : (fun kk => posMatches sid (some kk.1) kk.2 p) k = true :=
      List.find?_some (p := fun kk => posMatches sid (some kk.1) kk.2 p) (a := k) hf
    exact Or.inr ⟨k, List.mem_of_find?_eq_some hf, rfl, hps⟩

/-- After the loop has run, the store holds a row for every written key. -/
theorem storeHas_storeFold (sid : SeasonId) (now : Time) (P C A : CatId × Month → ℚ)
    (ks : List (CatId × Month)) (hks : ks.Nodup) (ps : List OTBPosition)
    (k : CatId × Month) (hk : k ∈ ks) :
    storeHas sid (storeFold sid now P C A ks ps) k = true := by
  rw [storeFold_char sid now P C A ks hks ps, storeHas_iff]
  by_cases hh : storeHas sid ps k = true
  · obtain ⟨p, hp, hmp⟩ := (storeHas_iff sid ps k).mp hh
    refine ⟨overwriteBy sid now P C A ks p,
      List.mem_append.mpr (Or.inl (List.mem_map.mpr ⟨p, hp, rfl⟩)), ?_⟩
    rcases overwriteBy_cases sid now P C A ks p with hid | ⟨kk, -, hrw, hmk⟩
    · rw [hid]
      exact hmp
    · rw [hrw, posMatches_of_rowFor_key sid now P C A kk k p hmk]
      exact hmp
  · refine ⟨rowFor sid now P C A k,
      List.mem_append.mpr (Or.inr (List.mem_map.mpr ⟨k, List.mem_filter.mpr ⟨hk,
        show (!storeHas sid ps k) = true by
          rw [Bool.eq_false_iff.mpr hh]
          rfl⟩, rfl⟩)), ?_⟩
    exact (posMatches_rowFor sid now P C A k k).mpr rfl

/-- After the loop has run, every stored row matching a written key is the
row the loop wrote for it. -/
theorem storeFold_row_eq (sid : SeasonId) (now : Time) (P C A : CatId × Month → ℚ)
    (ks : List (CatId × Month)) (hks : ks.Nodup) (ps : List OTBPosition)
    (p : OTBPosition) (hp : p ∈ storeFold sid now P C A ks ps)
    (k : CatId × Month) (hk : k ∈ ks)
    (hm : posMatches sid (some k.1) k.2 p = true) :
    p = rowFor sid now P C A k := by
  rw [storeFold_char sid now P C A ks hks ps] at hp
  rcases List.mem_append.mp hp with h1 | h2
  · obtain ⟨q, hq, rfl⟩ := List.mem_map.mp h1
    rcases overwriteBy_cases2 sid now P C A ks q with ⟨hnone, hid⟩ | ⟨kk, -, hrw, -⟩
    · rw [hid] at hm ⊢
      exact absurd hm (hnone k hk)
    · rw [hrw] at hm ⊢
      have hkeq : k = kk := (posMatches_rowFor sid now P C A kk k).mp hm
      rw [hkeq]
  · obtain ⟨kk, -, rfl⟩ := List.mem_map.mp h2
    have hkeq : k = kk := (posMatches_rowFor sid now P C A kk k).mp hm
    rw [hkeq]

/-- C3 (amended): two consecutive season recalculations with unchanged plan,
PO and adjustment data produce stores and returned lists that agree on every
stored field except `last_calculated`, which records each run's clock; with
equal clock readings the rows are fully identical. -/
theorem C3_idempotent_up_to_timestamp (db : DB) (sid : SeasonId) (t1 t2 : Time)
    (db1 db2 : DB) (out1 out2 : List OTBPosition)
    (h1 : recalculate_season db sid t1 = Except.ok (db1, out1))
    (h2 : recalculate_season db1 sid t2 = Except.ok (db2, out2)) :
    db2.positions.map scrubTime = db1.positions.map scrubTime ∧
    out2.map scrubTime = out1.map scrubTime ∧
    (t2 = t1 → db2.positions = db1.positions ∧ out2 = out1) := by
  obtain ⟨hpos1, hout1, -, hplans1, horders1, hadj1⟩ :=
    recalculate_season_ok db sid t1 db1 out1 h1
  obtain ⟨hpos2, hout2, -, -, -, -⟩ := recalculate_season_ok db1 sid t2 db2 out2 h2
  have hPK : planKeys db1 = planKeys db := planKeys_congr db1 db hplans1
  have hP : effectivePlanned db1 = effectivePlanned db :=
    effectivePlanned_congr db1 db hplans1 hadj1
  have hC : consumedLookup db1 = consumedLookup db := consumedLookup_congr db1 db horders1
  have hA : availableOTB db1 = availableOTB db :=
    availableOTB_congr db1 db hplans1 horders1 hadj1
  have hstore2 : db2.positions = storeFold sid t2 (effectivePlanned db sid none)
      (consumedLookup db sid none) (availableOTB db sid none) (planKeys db sid none)
      db1.positions := by
    rw [hpos2, loopStore, hPK, hP, hC, hA]
  have hstore1 : db1.positions = storeFold sid t1 (effectivePlanned db sid none)
      (consumedLookup db sid none) (availableOTB db sid none) (planKeys db sid none)
      db.positions := hpos1
  have hnd := nodup_planKeys db sid none
  -- every written key already has a row after the first run
  have hhas : ∀ k ∈ planKeys db sid none, storeHas sid db1.positions k = true := by
    intro k hk
    rw [hstore1]
    exact storeHas_storeFold sid t1 _ _ _ (planKeys db sid none) hnd db.positions k hk
  have hchar2 : db2.positions = db1.positions.map (overwriteBy sid t2
      (effectivePlanned db sid none) (consumedLookup db sid none)
      (availableOTB db sid none) (planKeys db sid none)) := by
    rw [hstore2, storeFold_char sid t2 _ _ _ (planKeys db sid none) hnd db1.positions]
    have hfil : (planKeys db sid none).filter
        (fun k => !storeHas sid db1.positions k) = [] := by
      rw [List.filter_eq_nil_iff]
      intro k hk
      rw [hhas k hk]
      exact fun hcontra => nomatch hcontra
    rw [hfil, List.map_nil, List.append_nil]
  have hrow1 : ∀ p ∈ db1.positions, ∀ k ∈ planKeys db sid none,
      posMatches sid (some k.1) k.2 p = true →
      p = rowFor sid t1 (effectivePlanned db sid none) (consumedLookup db sid none)
        (availableOTB db sid none) k := by
    intro p hp k hk hm
    rw [hstore1] at hp
    exact storeFold_row_eq sid t1 _ _ _ (planKeys db sid none) hnd db.positions p hp k hk hm
  have hscrub : ∀ p ∈ db1.positions,
      scrubTime (overwriteBy sid t2 (effectivePlanned db sid none)
        (consumedLookup db sid none) (availableOTB db sid none)
        (planKeys db sid none) p) = scrubTime p := by
    intro p hp
    rcases overwriteBy_cases sid t2 (effectivePlanned db sid none)
      (consumedLookup db sid none) (availableOTB db sid none)
      (planKeys db sid none) p with hid | ⟨k, hk, hrw, hm⟩
    · rw [hid]
    · rw [hrw, hrow1 p hp k hk hm]
      rfl
  refine ⟨?_, ?_, ?_⟩
  · rw [hchar2, List.map_map]
    exact List.map_congr_left (fun p hp => hscrub p hp)
  · rw [hout2, hout1, hPK]
    unfold loopRow
    rw [hP, hC, hA, List.map_map, List.map_map]
    rfl
  · intro ht
    subst ht
    constructor
    · rw [hchar2]
      have hid : ∀ p ∈ db1.positions, overwriteBy sid t2 (effectivePlanned db sid none)
          (consumedLookup db sid none) (availableOTB db sid none)
          (planKeys db sid none) p = p := by
        intro p hp
        rcases overwriteBy_cases sid t2 (effectivePlanned db sid none)
          (consumedLookup db sid none) (availableOTB db sid none)
          (planKeys db sid none) p with hid2 | ⟨k, hk, hrw, hm⟩
        · exact hid2
        · rw [hrw, hrow1 p hp k hk hm]
      rw [List.map_congr_left hid, List.map_id']
    · rw [hout2, hout1, hPK]
      unfold loopRow
      rw [hP, hC, hA]

/-- The row the second run (at clock 1) writes for the `Tdb` scenario. -/
def Trow1 : OTBPosition :=
  { season_id := 0, category_id := some 1, month := 1,
    planned_otb := 1000, consumed_otb := 850, available_otb := 150,
    last_calculated := some 1 }

theorem Tdb_recalc2 : recalculate_season { Tdb with positions := [Trow] } 0 1 =
    Except.ok ({ Tdb with positions := [Trow1] }, [Trow1]) := by
  rw [recalculate_season_run { Tdb with positions := [Trow] } 0 1
    ⟨0, SeasonStatus.created⟩ rfl]
  have hPK : planKeys { Tdb with positions := [Trow] } = planKeys Tdb :=
    planKeys_congr _ _ rfl
  have hP : effectivePlanned { Tdb with positions := [Trow] } = effectivePlanned Tdb :=
    effectivePlanned_congr _ _ rfl rfl
  have hC : consumedLookup { Tdb with positions := [Trow] } = consumedLookup Tdb :=
    consumedLookup_congr _ _ rfl
  have hA : availableOTB { Tdb with positions := [Trow] } = availableOTB Tdb :=
    availableOTB_congr _ _ rfl rfl rfl
  have hkeys : planKeys Tdb 0 none = [(1, 1)] := rfl
  have heff : effectivePlanned Tdb 0 none (1, 1) = 1000 := by
    norm_num [effectivePlanned, plannedLookup, planRowsFor, catFilter, adjIn, adjOut, Tdb]
  have hcons : consumedLookup Tdb 0 none (1, 1) = 850 := by
    norm_num +decide [consumedLookup, activeOrdersFor, active_statuses, orderMonth,
      catFilter, Tdb]
  have havail : availableOTB Tdb 0 none (1, 1) = 150 := by
    rw [availableOTB, heff, hcons]
    norm_num
  have hrow : loopRow { Tdb with positions := [Trow] } 0 none 1 (1, 1) = Trow1 := by
    rw [loopRow, hP, hC, hA, rowFor, heff, hcons, havail]
    rfl
  have hstore : loopStore { Tdb with positions := [Trow] } 0 none 1 [Trow] = [Trow1] := by
    rw [loopStore, hPK, hP, hC, hA, hkeys]
    show (upsert [Trow] 0 (some 1) 1 (effectivePlanned Tdb 0 none (1, 1))
      (consumedLookup Tdb 0 none (1, 1)) (availableOTB Tdb 0 none (1, 1)) 1).1 = _
    rw [upsert_fst_pos [Trow] 0 (some 1) 1 (effectivePlanned Tdb 0 none (1, 1))
      (consumedLookup Tdb 0 none (1, 1)) (availableOTB Tdb 0 none (1, 1)) 1 rfl,
      heff, hcons, havail]
    rfl
  have hps : ({ Tdb with positions := [Trow] } : DB).positions = [Trow] := rfl
  rw [hps, hstore, hPK, hkeys, List.map_cons, List.map_nil, hrow]

/-- C3 counterexample: two back-to-back recalculations of the same season,
with no data change in between, store rows that are not byte-identical — the
`last_calculated` column records each run's clock (0 then 1). -/
theorem C3_counterexample :
    recalculate_season Tdb 0 0 = Except.ok ({ Tdb with positions := [Trow] }, [Trow]) ∧
    recalculate_season { Tdb with positions := [Trow] } 0 1 =
      Except.ok ({ Tdb with positions := [Trow1] }, [Trow1]) ∧
    ({ Tdb with positions := [Trow1] } : DB).positions ≠
      ({ Tdb with positions := [Trow] } : DB).positions :=
  ⟨Tdb_recalc, Tdb_recalc2, by simp [Trow, Trow1]⟩

/-- Witness for the amended C3 at the `Tdb` scenario run at clocks 0 and 1. -/
theorem C3_witness :
    ({ Tdb with positions := [Trow1] } : DB).positions.map scrubTime =
      ({ Tdb with positions := [Trow] } : DB).positions.map scrubTime ∧
    [Trow1].map scrubTime = [Trow].map scrubTime ∧
    ((1 : Time) = 0 → ({ Tdb with positions := [Trow1] } : DB).positions =
      ({ Tdb with positions := [Trow] } : DB).positions ∧ [Trow1] = [Trow]) :=
  C3_idempotent_up_to_timestamp Tdb 0 0 1 { Tdb with positions := [Trow] }
    { Tdb with positions := [Trow1] } [Trow] [Trow1] Tdb_recalc Tdb_recalc2

/-! ### C1: conservation under adjustment -/

/-- The composite key of a position row (the unique constraint's columns). -/
def posKey (p : OTBPosition) : SeasonId × Option CatId × Month :=
  (p.season_id, p.category_id, p.month)

/-- Sum of `planned_otb` over the rows whose key satisfies a predicate. -/
def planSum (pk : SeasonId × Option CatId × Month → Bool) (ps : List OTBPosition) : ℚ :=
  ((ps.filter (fun p => pk (posKey p))).map (fun p => p.planned_otb)).sum

/-- The sum of `planned_otb` over a season's stored positions of one
category. -/
def catPlannedSum (ps : List OTBPosition) (sid : SeasonId) (c : CatId) : ℚ :=
  ((ps.filter (fun p => p.season_id == sid && p.category_id == some c)).map
    (fun p => p.planned_otb)).sum

/-- The sum of `planned_otb` over all of a season's stored positions. -/
def seasonPlannedSum (ps : List OTBPosition) (sid : SeasonId) : ℚ :=
  ((ps.filter (fun p => p.season_id == sid)).map (fun p => p.planned_otb)).sum

/-- The number of planned `(category, month)` buckets of one category. -/
def nKeys (db : DB) (sid : SeasonId) (c : CatId) : ℕ :=
  ((planKeys db sid none).filter (fun k => k.1 == c)).length

theorem filterMapComm {α β : Type} (f : α → β) (q : β → Bool) (l : List α) :
    (l.map f).filter q = (l.filter (fun x => q (f x))).map f := by
  induction l with
  | nil => rfl
  | cons x t ih =>
    rw [List.map_cons, List.filter_cons, List.filter_cons]
    by_cases hx : q (f x) = true
    · rw [hx, if_pos rfl, if_pos rfl, List.map_cons, ih]
    · rw [Bool.eq_false_iff.mpr hx, if_neg Bool.false_ne_true, if_neg Bool.false_ne_true, ih]

theorem sum_map_sub {α : Type} (l : List α) (f g : α → ℚ) :
    (l.map f).sum - (l.map g).sum = (l.map (fun x => f x - g x)).sum := by
  induction l with
  | nil => simp
  | cons x t ih =>
    simp only [List.map_cons, List.sum_cons]
    linarith

theorem sum_filter_eq_sum_ite {α : Type} (l : List α) (q : α → Bool) (g : α → ℚ) :
    ((l.filter q).map g).sum = (l.map (fun x => if q x then g x else 0)).sum := by
  induction l with
  | nil => rfl
  | cons x t ih =>
    rw [List.filter_cons, List.map_cons, List.sum_cons]
    by_cases hx : q x = true
    · rw [hx, if_pos rfl, if_pos rfl, List.map_cons, List.sum_cons, ih]
    · rw [Bool.eq_false_iff.mpr hx, if_neg Bool.false_ne_true, if_neg Bool.false_ne_true, ih]
      linarith

theorem sum_filter_add_sum_filter_not {α : Type} (l : List α) (q : α → Bool)
    (g : α → ℚ) :
    ((l.filter q).map g).sum + ((l.filter (fun x => !q x)).map g).sum = (l.map g).sum := by
  induction l with
  | nil => simp
  | cons x t ih =>
    cases hx : q x with
    | true =>
      simp only [List.filter_cons, hx, Bool.not_true, if_true,
        if_neg Bool.false_ne_true, List.map_cons, List.sum_cons]
      linarith
    | false =>
      simp only [List.filter_cons, hx, Bool.not_false, if_true,
        if_neg Bool.false_ne_true, List.map_cons, List.sum_cons]
      linarith

theorem sum_map_const {α : Type} (l : List α) (c : ℚ) :
    (l.map (fun _ => c)).sum = (l.length : ℚ) * c := by
  induction l with
  | nil => simp
  | cons x t ih =>
    rw [List.map_cons, List.sum_cons, ih, List.length_cons]
    push_cast
    ring

theorem posMatches_iff_posKey (sid : SeasonId) (k : CatId × Month) (p : OTBPosition) :
    posMatches sid (some k.1) k.2 p = true ↔ posKey p = (sid, some k.1, k.2) := by
  rw [posMatches_iff]
  unfold posKey
  constructor
  · rintro ⟨h1, h2, h3⟩
    rw [h1, h2, h3]
  · intro h
    injection h with h1 h23
    injection h23 with h2 h3
    exact ⟨h1, h2, h3⟩

theorem posKey_overwriteBy (sid : SeasonId) (now : Time) (P C A : CatId × Month → ℚ)
    (ks : List (CatId × Month)) (p : OTBPosition) :
    posKey (overwriteBy sid now P C A ks p) = posKey p := by
  rcases overwriteBy_cases2 sid now P C A ks p with ⟨-, hid⟩ | ⟨k, -, hrw, hm⟩
  · rw [hid]
  · rw [hrw, (posMatches_iff_posKey sid k p).mp hm]
    rfl

/-- The key-extraction sum: over a store whose keys are unique, summing a
per-key function over each row's matching written key (0 when unmatched)
equals summing it over the written keys the store holds. -/
theorem fb_sum (sid : SeasonId) (ks : List (CatId × Month)) (hks : ks.Nodup)
    (g : CatId × Month → ℚ) :
    ∀ ps : List OTBPosition, (ps.map posKey).Nodup →
      (ps.map (fun p =>
        ((ks.find? (fun k => posMatches sid (some k.1) k.2 p)).elim 0 g))).sum =
      ((ks.filter (fun k => storeHas sid ps k)).map g).sum := by
  intro ps
  induction ps with
  | nil =>
    intro _
    have hfil : ks.filter (fun k => storeHas sid ([] : List OTBPosition) k) = [] := by
      rw [List.filter_eq_nil_iff]
      intro k _
      intro hc
      rw [storeHas_iff] at hc
      obtain ⟨p, hp, -⟩ := hc
      cases hp
    rw [hfil]
    rfl
  | cons p t ih =>
    intro hnd
    rw [List.map_cons] at hnd
    obtain ⟨hkeyp, hnd2⟩ := List.nodup_cons.mp hnd
    rw [List.map_cons, List.sum_cons, ih hnd2]
    have hsplit : ∀ k ∈ ks, storeHas sid (p :: t) k =
        (posMatches sid (some k.1) k.2 p || storeHas sid t k) := by
      intro k _
      unfold storeHas
      rw [List.any_cons]
    cases hf : ks.find? (fun k => posMatches sid (some k.1) k.2 p) with
    | none =>
      have hnomatch : ∀ k ∈ ks, posMatches sid (some k.1) k.2 p = false := by
        intro k hk
        have := List.find?_eq_none.mp hf k hk
        exact Bool.eq_false_iff.mpr (by simpa using this)
      have hfil : ks.filter (fun k => storeHas sid (p :: t) k) =
          ks.filter (fun k => storeHas sid t k) := by
        apply List.filter_congr
        intro k hk
        rw [hsplit k hk, hnomatch k hk, Bool.false_or]
      rw [hfil]
      simp
    | some k0 =>
      have hm0 : posMatches sid (some k0.1) k0.2 p = true :=
        List.find?_some (p := fun k => posMatches sid (some k.1) k.2 p) (a := k0) hf
      have hk0mem : k0 ∈ ks := List.mem_of_find?_eq_some hf
      have hkey0 : posKey p = (sid, some k0.1, k0.2) :=
        (posMatches_iff_posKey sid k0 p).mp hm0
      -- no row of the tail shares the key, so `k0` is fresh for the tail
      have hhas0 : storeHas sid t k0 = false := by
        rw [Bool.eq_false_iff]
        intro hc
        obtain ⟨q, hq, hmq⟩ := (storeHas_iff sid t k0).mp hc
        have : posKey q = posKey p := by
          rw [hkey0]
          exact (posMatches_iff_posKey sid k0 q).mp hmq
        exact hkeyp (this ▸ List.mem_map.mpr ⟨q, hq, rfl⟩)
      -- a key matches `p` exactly when it is `k0`
      have hmatch : ∀ k ∈ ks, posMatches sid (some k.1) k.2 p = (k == k0) := by
        intro k hk
        by_cases hkeq : k = k0
        · rw [hkeq, hm0]
          exact (beq_self_eq_true k0).symm
        · have h1 : posMatches sid (some k.1) k.2 p = false := by
            rw [Bool.eq_false_iff]
            intro hc
            exact hkeq (posMatches_key_unique sid p k k0 hc hm0)
          rw [h1]
          exact (beq_eq_false_iff_ne.mpr hkeq).symm
      have hfil2 : ks.filter (fun k => storeHas sid (p :: t) k) =
          ks.filter (fun k => k == k0 || storeHas sid t k) := by
        apply List.filter_congr
        intro k hk
        rw [hsplit k hk, hmatch k hk]
      -- extract the `k0` summand
      have hextract : ∀ l : List (CatId × Month), l.Nodup → k0 ∈ l →
          ((l.filter (fun k => k == k0 || storeHas sid t k)).map g).sum =
          g k0 + ((l.filter (fun k => storeHas sid t k)).map g).sum := by
        intro l
        induction l with
        | nil =>
          intro _ hmem
          cases hmem
        | cons x xs ihx =>
          intro hndl hmem
          obtain ⟨hxnot, hndxs⟩ := List.nodup_cons.mp hndl
          rcases List.mem_cons.mp hmem with rfl | hmemxs
          · rw [List.filter_cons, List.filter_cons]
            rw [show (k0 == k0 || storeHas sid t k0) = true from by
              rw [beq_self_eq_true]
              rfl]
            rw [if_pos rfl, hhas0, if_neg Bool.false_ne_true, List.map_cons, List.sum_cons]
            have hxs : xs.filter (fun k => k == k0 || storeHas sid t k) =
                xs.filter (fun k => storeHas sid t k) := by
              apply List.filter_congr
              intro k hk
              have hne0 : (k == k0) = false :=
                beq_eq_false_iff_ne.mpr (fun h => hxnot (h ▸ hk))
              rw [hne0, Bool.false_or]
            rw [hxs]
          · rw [List.filter_cons, List.filter_cons]
            have hxne : (x == k0) = false :=
              beq_eq_false_iff_ne.mpr (fun h => hxnot (h ▸ hmemxs))
            rw [hxne, Bool.false_or]
            by_cases hx : storeHas sid t x = true
            · rw [hx, if_pos rfl, if_pos rfl, List.map_cons, List.sum_cons,
                List.map_cons, List.sum_cons, ihx hndxs hmemxs]
              ring
            · rw [Bool.eq_false_iff.mpr hx, if_neg Bool.false_ne_true,
                if_neg Bool.false_ne_true, ihx hndxs hmemxs]
      rw [hfil2, hextract ks hks hk0mem]
      simp

/-- The planned-sum difference between two runs writing the same keys into
the same well-keyed store with different per-key values: exactly the summed
per-key planned difference over the written keys satisfying the key
predicate. -/
theorem planSum_storeFold_sub (sid : SeasonId) (nowA nowB : Time)
    (Pa Ca Aa Pb Cb Ab : CatId × Month → ℚ)
    (ks : List (CatId × Month)) (hks : ks.Nodup)
    (ps : List OTBPosition) (hwf : (ps.map posKey).Nodup)
    (pk : SeasonId × Option CatId × Month → Bool) :
    planSum pk (storeFold sid nowA Pa Ca Aa ks ps) -
      planSum pk (storeFold sid nowB Pb Cb Ab ks ps) =
    ((ks.filter (fun k => pk (sid, some k.1, k.2))).map (fun k => Pa k - Pb k)).sum := by
  rw [storeFold_char sid nowA Pa Ca Aa ks hks ps, storeFold_char sid nowB Pb Cb Ab ks hks ps]
  unfold planSum
  rw [List.filter_append, List.map_append, List.sum_append,
    List.filter_append, List.map_append, List.sum_append]
  have hmap : ∀ (nw : Time) (P C A : CatId × Month → ℚ),
      (ps.map (overwriteBy sid nw P C A ks)).filter (fun p => pk (posKey p)) =
      (ps.filter (fun p => pk (posKey p))).map (overwriteBy sid nw P C A ks) := by
    intro nw P C A
    rw [filterMapComm]
    congr 1
    apply List.filter_congr
    intro p _
    rw [posKey_overwriteBy]
  rw [hmap nowA Pa Ca Aa, hmap nowB Pb Cb Ab, List.map_map, List.map_map]
  simp only [Function.comp_def]
  have hpoint : ∀ p : OTBPosition,
      (overwriteBy sid nowA Pa Ca Aa ks p).planned_otb -
        (overwriteBy sid nowB Pb Cb Ab ks p).planned_otb =
      ((ks.find? (fun k => posMatches sid (some k.1) k.2 p)).elim 0
        (fun k => Pa k - Pb k)) := by
    intro p
    unfold overwriteBy
    cases hf : ks.find? (fun k => posMatches sid (some k.1) k.2 p) with
    | none => exact sub_self _
    | some k => rfl
  have hmapdiff :
      ((ps.filter (fun p => pk (posKey p))).map
        (fun p => (overwriteBy sid nowA Pa Ca Aa ks p).planned_otb)).sum -
      ((ps.filter (fun p => pk (posKey p))).map
        (fun p => (overwriteBy sid nowB Pb Cb Ab ks p).planned_otb)).sum =
      ((ks.filter (fun k => storeHas sid ps k)).map
        (fun k => if pk (sid, some k.1, k.2) then Pa k - Pb k else 0)).sum := by
    rw [sum_map_sub]
    have h1 : (ps.filter (fun p => pk (posKey p))).map
        (fun p => (overwriteBy sid nowA Pa Ca Aa ks p).planned_otb -
          (overwriteBy sid nowB Pb Cb Ab ks p).planned_otb) =
        (ps.filter (fun p => pk (posKey p))).map
          (fun p => (ks.find? (fun k => posMatches sid (some k.1) k.2 p)).elim 0
            (fun k => Pa k - Pb k)) :=
      List.map_congr_left (fun p _ => hpoint p)
    rw [h1, sum_filter_eq_sum_ite]
    have h2 : ps.map (fun p => if pk (posKey p) then
        ((ks.find? (fun k => posMatches sid (some k.1) k.2 p)).elim 0
          (fun k => Pa k - Pb k)) else 0) =
      ps.map (fun p => (ks.find? (fun k => posMatches sid (some k.1) k.2 p)).elim 0
        (fun k => if pk (sid, some k.1, k.2) then Pa k - Pb k else 0)) := by
      apply List.map_congr_left
      intro p _
      cases hf : ks.find? (fun k => posMatches sid (some k.1) k.2 p) with
      | none =>
        simp only [Option.elim_none, ite_self]
      | some k =>
        have hm : posMatches sid (some k.1) k.2 p = true :=
          List.find?_some (p := fun kk => posMatches sid (some kk.1) kk.2 p) (a := k) hf
        have hkey : posKey p = (sid, some k.1, k.2) :=
          (posMatches_iff_posKey sid k p).mp hm
        simp only [Option.elim_some, hkey]
    rw [h2, fb_sum sid ks hks _ ps hwf]
  have hnews : ∀ (nw : Time) (P C A : CatId × Month → ℚ),
      ((((ks.filter (fun k => !storeHas sid ps k)).map
        (rowFor sid nw P C A)).filter (fun p => pk (posKey p))).map
          (fun p => p.planned_otb)).sum =
      (((ks.filter (fun k => !storeHas sid ps k)).filter
        (fun k => pk (sid, some k.1, k.2))).map P).sum := by
    intro nw P C A
    rw [filterMapComm, List.map_map]
    congr 1
  rw [hnews nowA Pa Ca Aa, hnews nowB Pb Cb Ab]
  have hnewsdiff :
      (((ks.filter (fun k => !storeHas sid ps k)).filter
        (fun k => pk (sid, some k.1, k.2))).map Pa).sum -
      (((ks.filter (fun k => !storeHas sid ps k)).filter
        (fun k => pk (sid, some k.1, k.2))).map Pb).sum =
      ((ks.filter (fun k => !storeHas sid ps k)).map
        (fun k => if pk (sid, some k.1, k.2) then Pa k - Pb k else 0)).sum := by
    rw [sum_map_sub, sum_filter_eq_sum_ite]
  have htotal :
      ((ks.filter (fun k => storeHas sid ps k)).map
        (fun k => if pk (sid, some k.1, k.2) then Pa k - Pb k else 0)).sum +
      ((ks.filter (fun k => !storeHas sid ps k)).map
        (fun k => if pk (sid, some k.1, k.2) then Pa k - Pb k else 0)).sum =
      (ks.map (fun k => if pk (sid, some k.1, k.2) then Pa k - Pb k else 0)).sum :=
    sum_filter_add_sum_filter_not ks _ _
  have hback : (ks.map (fun k => if pk (sid, some k.1, k.2) then Pa k - Pb k else 0)).sum =
      ((ks.filter (fun k => pk (sid, some k.1, k.2))).map (fun k => Pa k - Pb k)).sum :=
    (sum_filter_eq_sum_ite ks _ _).symm
  linarith

theorem catPlannedSum_eq_planSum (ps : List OTBPosition) (sid : SeasonId) (c : CatId) :
    catPlannedSum ps sid c =
      planSum (fun key => key.1 == sid && key.2.1 == some c) ps := rfl

theorem seasonPlannedSum_eq_planSum (ps : List OTBPosition) (sid : SeasonId) :
    seasonPlannedSum ps sid = planSum (fun key => key.1 == sid) ps := rfl

theorem filter_and {α : Type} (p q : α → Bool) (l : List α) :
    l.filter (fun a => p a && q a) = (l.filter p).filter q := by
  induction l with
  | nil => rfl
  | cons x t ih =>
    rw [List.filter_cons, List.filter_cons]
    cases hp : p x with
    | false => simp only [Bool.false_and, if_neg Bool.false_ne_true, ih]
    | true =>
      rw [Bool.true_and, if_pos rfl, List.filter_cons]
      cases hq : q x with
      | false => rw [if_neg Bool.false_ne_true, if_neg Bool.false_ne_true, ih]
      | true => rw [if_pos rfl, if_pos rfl, ih]

theorem nat_beq_comm (a b : Nat) : (a == b) = (b == a) := by
  by_cases h : a = b
  · rw [h]
  · rw [beq_eq_false_iff_ne.mpr h, beq_eq_false_iff_ne.mpr (Ne.symm h)]

/-- When the season has exactly one approved adjustment, the outgoing total of
any category is that adjustment's amount if it is the source, else 0. -/
theorem adjOut_single (db : DB) (sid : SeasonId) (adj : OTBAdjustment)
    (hA : db.adjustments.filter (fun a =>
        a.season_id == sid && a.status == AdjustmentStatus.approved) = [adj])
    (c : CatId) :
    adjOut db sid none c = if adj.from_category_id == some c then adj.amount else 0 := by
  unfold adjOut
  have hpred : ∀ a ∈ db.adjustments,
      (a.season_id == sid && a.status == AdjustmentStatus.approved &&
        a.from_category_id == some c &&
        (match (none : Option CatId) with
         | none => true
         | some c0 => a.from_category_id == some c0)) =
      ((a.season_id == sid && a.status == AdjustmentStatus.approved) &&
        a.from_category_id == some c) := by
    intro a _
    rw [Bool.and_true]
  rw [List.filter_congr hpred, filter_and, hA, List.filter_cons]
  cases hf : (adj.from_category_id == some c) with
  | true => simp
  | false => simp

/-- Counterpart of `adjOut_single` for the incoming total. -/
theorem adjIn_single (db : DB) (sid : SeasonId) (adj : OTBAdjustment)
    (hA : db.adjustments.filter (fun a =>
        a.season_id == sid && a.status == AdjustmentStatus.approved) = [adj])
    (c : CatId) :
    adjIn db sid none c = if adj.to_category_id == some c then adj.amount else 0 := by
  unfold adjIn
  have hpred : ∀ a ∈ db.adjustments,
      (a.season_id == sid && a.status == AdjustmentStatus.approved &&
        a.to_category_id == some c &&
        (match (none : Option CatId) with
         | none => true
         | some c0 => a.to_category_id == some c0)) =
      ((a.season_id == sid && a.status == AdjustmentStatus.approved) &&
        a.to_category_id == some c) := by
    intro a _
    rw [Bool.and_true]
  rw [List.filter_congr hpred, filter_and, hA, List.filter_cons]
  cases hf : (adj.to_category_id == some c) with
  | true => simp
  | false => simp

/-- With no approved adjustment in the season, the outgoing totals are 0. -/
theorem adjOut_none_approved (db : DB) (sid : SeasonId)
    (hN : db.adjustments.filter (fun a =>
        a.season_id == sid && a.status == AdjustmentStatus.approved) = [])
    (c : CatId) : adjOut db sid none c = 0 := by
  unfold adjOut
  have hpred : ∀ a ∈ db.adjustments,
      (a.season_id == sid && a.status == AdjustmentStatus.approved &&
        a.from_category_id == some c &&
        (match (none : Option CatId) with
         | none => true
         | some c0 => a.from_category_id == some c0)) =
      ((a.season_id == sid && a.status == AdjustmentStatus.approved) &&
        a.from_category_id == some c) := by
    intro a _
    rw [Bool.and_true]
  rw [List.filter_congr hpred, filter_and, hN]
  rfl

/-- With no approved adjustment in the season, the incoming totals are 0. -/
theorem adjIn_none_approved (db : DB) (sid : SeasonId)
    (hN : db.adjustments.filter (fun a =>
        a.season_id == sid && a.status == AdjustmentStatus.approved) = [])
    (c : CatId) : adjIn db sid none c = 0 := by
  unfold adjIn
  have hpred : ∀ a ∈ db.adjustments,
      (a.season_id == sid && a.status == AdjustmentStatus.approved &&
        a.to_category_id == some c &&
        (match (none : Option CatId) with
         | none => true
         | some c0 => a.to_category_id == some c0)) =
      ((a.season_id == sid && a.status == AdjustmentStatus.approved) &&
        a.to_category_id == some c) := by
    intro a _
    rw [Bool.and_true]
  rw [List.filter_congr hpred, filter_and, hN]
  rfl

theorem beq_some_some (a b : Nat) : ((some a : Option Nat) == some b) = (a == b) := rfl

/-- Per-key effective-planned difference between the database with the single
approved adjustment and the one without it. -/
theorem effectivePlanned_sub (dbA dbN : DB) (sid : SeasonId) (adj : OTBAdjustment)
    (hp : dbN.plans = dbA.plans)
    (hA : dbA.adjustments.filter (fun a =>
        a.season_id == sid && a.status == AdjustmentStatus.approved) = [adj])
    (hN : dbN.adjustments.filter (fun a =>
        a.season_id == sid && a.status == AdjustmentStatus.approved) = [])
    (X Y : CatId) (hfrom : adj.from_category_id = some X)
    (hto : adj.to_category_id = some Y) (k : CatId × Month) :
    effectivePlanned dbA sid none k - effectivePlanned dbN sid none k =
      (if k.1 == Y then adj.amount else 0) - (if k.1 == X then adj.amount else 0) := by
  unfold effectivePlanned
  have hL : plannedLookup dbN sid none k = plannedLookup dbA sid none k := by
    unfold plannedLookup planRowsFor
    rw [hp]
  rw [adjIn_single dbA sid adj hA k.1, adjOut_single dbA sid adj hA k.1,
    adjIn_none_approved dbN sid hN k.1, adjOut_none_approved dbN sid hN k.1,
    hL, hto, hfrom, beq_some_some, beq_some_some, nat_beq_comm Y k.1, nat_beq_comm X k.1]
  ring

/-- C1 (amended): with exactly one approved adjustment of amount A from
category X to category Y, `recalculate_season` shifts X's stored planned
total down by A for EACH of X's planned `(category, month)` buckets and Y's
up by A for each of Y's buckets — not by A once — so the grand total moves
by `(nY - nX) · A` rather than staying unchanged. -/
theorem C1_conservation_amended (dbA dbN : DB) (sid : SeasonId) (tA tN : Time)
    (adj : OTBAdjustment) (X Y : CatId)
    (hp : dbN.plans = dbA.plans) (ho : dbN.orders = dbA.orders)
    (hpos : dbN.positions = dbA.positions)
    (hwf : (dbA.positions.map posKey).Nodup)
    (hA : dbA.adjustments.filter (fun a =>
        a.season_id == sid && a.status == AdjustmentStatus.approved) = [adj])
    (hN : dbN.adjustments.filter (fun a =>
        a.season_id == sid && a.status == AdjustmentStatus.approved) = [])
    (hfrom : adj.from_category_id = some X) (hto : adj.to_category_id = some Y)
    (hXY : X ≠ Y)
    (dbA1 dbN1 : DB) (outA outN : List OTBPosition)
    (hrA : recalculate_season dbA sid tA = Except.ok (dbA1, outA))
    (hrN : recalculate_season dbN sid tN = Except.ok (dbN1, outN)) :
    catPlannedSum dbA1.positions sid X =
      catPlannedSum dbN1.positions sid X - (nKeys dbA sid X : ℚ) * adj.amount ∧
    catPlannedSum dbA1.positions sid Y =
      catPlannedSum dbN1.positions sid Y + (nKeys dbA sid Y : ℚ) * adj.amount ∧
    seasonPlannedSum dbA1.positions sid =
      seasonPlannedSum dbN1.positions sid +
        ((nKeys dbA sid Y : ℚ) - (nKeys dbA sid X : ℚ)) * adj.amount := by
  obtain ⟨hApos, -, -, -, -, -⟩ := recalculate_season_ok dbA sid tA dbA1 outA hrA
  obtain ⟨hNpos, -, -, -, -, -⟩ := recalculate_season_ok dbN sid tN dbN1 outN hrN
  rw [hApos, hNpos]
  unfold loopStore
  rw [planKeys_congr dbN dbA hp, hpos, consumedLookup_congr dbN dbA ho]
  simp only [catPlannedSum_eq_planSum, seasonPlannedSum_eq_planSum]
  have hcat : ∀ c : CatId,
      planSum (fun key => key.1 == sid && key.2.1 == some c)
          (storeFold sid tA (effectivePlanned dbA sid none)
            (consumedLookup dbA sid none) (availableOTB dbA sid none)
            (planKeys dbA sid none) dbA.positions) -
        planSum (fun key => key.1 == sid && key.2.1 == some c)
          (storeFold sid tN (effectivePlanned dbN sid none)
            (consumedLookup dbA sid none) (availableOTB dbN sid none)
            (planKeys dbA sid none) dbA.positions) =
        (nKeys dbA sid c : ℚ) *
          ((if c == Y then adj.amount else 0) - (if c == X then adj.amount else 0)) := by
    intro c
    refine (planSum_storeFold_sub sid tA tN _ _ _ _ _ _ (planKeys dbA sid none)
      (nodup_planKeys dbA sid none) dbA.positions hwf _).trans ?_
    show (((planKeys dbA sid none).filter
        (fun k => (sid == sid) && ((some k.1 : Option CatId) == some c))).map
          (fun k => effectivePlanned dbA sid none k - effectivePlanned dbN sid none k)).sum =
      (nKeys dbA sid c : ℚ) *
        ((if c == Y then adj.amount else 0) - (if c == X then adj.amount else 0))
    have h1 : (planKeys dbA sid none).filter
        (fun k => (sid == sid) && ((some k.1 : Option CatId) == some c)) =
        (planKeys dbA sid none).filter (fun k => k.1 == c) :=
      List.filter_congr (fun k _ => by
        rw [beq_some_some, beq_self_eq_true, Bool.true_and])
    rw [h1]
    have h2 : ((planKeys dbA sid none).filter (fun k => k.1 == c)).map
        (fun k => effectivePlanned dbA sid none k - effectivePlanned dbN sid none k) =
        ((planKeys dbA sid none).filter (fun k => k.1 == c)).map
          (fun _ => (if c == Y then adj.amount else 0) - (if c == X then adj.amount else 0)) := by
      apply List.map_congr_left
      intro k hk
      have hkc : k.1 = c := beq_iff_eq.mp (List.mem_filter.mp hk).2
      rw [effectivePlanned_sub dbA dbN sid adj hp hA hN X Y hfrom hto k, hkc]
    rw [h2, sum_map_const]
    unfold nKeys
    ring
  have hXdiff := hcat X
  have hYdiff := hcat Y
  rw [beq_self_eq_true, beq_eq_false_iff_ne.mpr hXY] at hXdiff
  rw [beq_self_eq_true, beq_eq_false_iff_ne.mpr (Ne.symm hXY)] at hYdiff
  simp only [eq_self_iff_true, Bool.false_eq_true, if_true, if_false] at hXdiff hYdiff
  have hSdiff :
      planSum (fun key => key.1 == sid)
          (storeFold sid tA (effectivePlanned dbA sid none)
            (consumedLookup dbA sid none) (availableOTB dbA sid none)
            (planKeys dbA sid none) dbA.positions) -
        planSum (fun key => key.1 == sid)
          (storeFold sid tN (effectivePlanned dbN sid none)
            (consumedLookup dbA sid none) (availableOTB dbN sid none)
            (planKeys dbA sid none) dbA.positions) =
        ((nKeys dbA sid Y : ℚ) - (nKeys dbA sid X : ℚ)) * adj.amount := by
    refine (planSum_storeFold_sub sid tA tN _ _ _ _ _ _ (planKeys dbA sid none)
      (nodup_planKeys dbA sid none) dbA.positions hwf _).trans ?_
    show (((planKeys dbA sid none).filter (fun k => (sid == sid : Bool))).map
        (fun k => effectivePlanned dbA sid none k - effectivePlanned dbN sid none k)).sum =
      ((nKeys dbA sid Y : ℚ) - (nKeys dbA sid X : ℚ)) * adj.amount
    have h1 : (planKeys dbA sid none).filter (fun k => (sid == sid : Bool)) =
        planKeys dbA sid none :=
      List.filter_eq_self.mpr (fun a _ => beq_self_eq_true sid)
    rw [h1]
    have h2 : (planKeys dbA sid none).map
        (fun k => effectivePlanned dbA sid none k - effectivePlanned dbN sid none k) =
        (planKeys dbA sid none).map
          (fun k => (if k.1 == Y then adj.amount else 0) -
            (if k.1 == X then adj.amount else 0)) :=
      List.map_congr_left (fun k _ =>
        effectivePlanned_sub dbA dbN sid adj hp hA hN X Y hfrom hto k)
    rw [h2, ← sum_map_sub]
    have h3 : ((planKeys dbA sid none).map
        (fun k => if k.1 == Y then adj.amount else 0)).sum =
        (nKeys dbA sid Y : ℚ) * adj.amount := by
      have h := sum_filter_eq_sum_ite (planKeys dbA sid none)
        (fun k => k.1 == Y) (fun _ => adj.amount)
      rw [sum_map_const] at h
      exact h.symm
    have h4 : ((planKeys dbA sid none).map
        (fun k => if k.1 == X then adj.amount else 0)).sum =
        (nKeys dbA sid X : ℚ) * adj.amount := by
      have h := sum_filter_eq_sum_ite (planKeys dbA sid none)
        (fun k => k.1 == X) (fun _ => adj.amount)
      rw [sum_map_const] at h
      exact h.symm
    rw [h3, h4]
    ring
  exact ⟨by linear_combination hXdiff, by linear_combination hYdiff,
    by linear_combination hSdiff⟩

/-- Folding the upsert loop into an empty store just writes one fresh row per
key. -/
theorem storeFold_empty (sid : SeasonId) (now : Time) (P C A : CatId × Month → ℚ)
    (ks : List (CatId × Month)) (hks : ks.Nodup) :
    storeFold sid now P C A ks [] = ks.map (rowFor sid now P C A) := by
  rw [storeFold_char sid now P C A ks hks []]
  simp [storeHas]

/-- The approved adjustment of the conservation scenario: move 10 from
category 1 to category 2. -/
def C1adj : OTBAdjustment :=
  { id := 0, season_id := 0, from_category_id := some 1, to_category_id := some 2,
    amount := 10, reason := "rebalance", status := AdjustmentStatus.approved,
    approved_by := some 9, approved_at := some 5, rejection_reason := none,
    created_by := some 9 }

/-- Plan rows of the conservation scenario: category 1 planned in months 1
and 2, category 2 in month 1, 100 each. -/
def C1plans : List OTBPlan :=
  [{ season_id := 0, location_id := 0, category_id := 1, month := 1,
     approved_spend_limit := 100 },
   { season_id := 0, location_id := 0, category_id := 1, month := 2,
     approved_spend_limit := 100 },
   { season_id := 0, location_id := 0, category_id := 2, month := 1,
     approved_spend_limit := 100 }]

/-- The season with the approved adjustment. -/
def C1adjDb : DB :=
  { seasons := [{ id := 0, status := SeasonStatus.created }],
    plans := C1plans, orders := [], adjustments := [C1adj], positions := [] }

/-- The same season without the adjustment. -/
def C1noadjDb : DB :=
  { seasons := [{ id := 0, status := SeasonStatus.created }],
    plans := C1plans, orders := [], adjustments := [], positions := [] }

def C1rowA11 : OTBPosition :=
  { season_id := 0, category_id := some 1, month := 1, planned_otb := 90,
    consumed_otb := 0, available_otb := 90, last_calculated := some 7 }

def C1rowA12 : OTBPosition :=
  { season_id := 0, category_id := some 1, month := 2, planned_otb := 90,
    consumed_otb := 0, available_otb := 90, last_calculated := some 7 }

def C1rowA21 : OTBPosition :=
  { season_id := 0, category_id := some 2, month := 1, planned_otb := 110,
    consumed_otb := 0, available_otb := 110, last_calculated := some 7 }

def C1rowN11 : OTBPosition :=
  { season_id := 0, category_id := some 1, month := 1, planned_otb := 100,
    consumed_otb := 0, available_otb := 100, last_calculated := some 7 }

def C1rowN12 : OTBPosition :=
  { season_id := 0, category_id := some 1, month := 2, planned_otb := 100,
    consumed_otb := 0, available_otb := 100, last_calculated := some 7 }

def C1rowN21 : OTBPosition :=
  { season_id := 0, category_id := some 2, month := 1, planned_otb := 100,
    consumed_otb := 0, available_otb := 100, last_calculated := some 7 }

/-- Recalculating the adjusted season: category 1's two buckets each drop by
the full adjustment amount, category 2's single bucket gains it once. -/
theorem C1adjDb_recalc : recalculate_season C1adjDb 0 7 =
    Except.ok ({ C1adjDb with positions := [C1rowA11, C1rowA12, C1rowA21] },
      [C1rowA11, C1rowA12, C1rowA21]) := by
  rw [recalculate_season_run C1adjDb 0 7 ⟨0, SeasonStatus.created⟩ rfl]
  have hkeys : planKeys C1adjDb 0 none = [(1, 1), (1, 2), (2, 1)] := rfl
  have heff11 : effectivePlanned C1adjDb 0 none (1, 1) = 90 := by
    norm_num +decide [effectivePlanned, plannedLookup, planRowsFor, catFilter,
      adjIn, adjOut, C1adjDb, C1plans, C1adj]
  have heff12 : effectivePlanned C1adjDb 0 none (1, 2) = 90 := by
    norm_num +decide [effectivePlanned, plannedLookup, planRowsFor, catFilter,
      adjIn, adjOut, C1adjDb, C1plans, C1adj]
  have heff21 : effectivePlanned C1adjDb 0 none (2, 1) = 110 := by
    norm_num +decide [effectivePlanned, plannedLookup, planRowsFor, catFilter,
      adjIn, adjOut, C1adjDb, C1plans, C1adj]
  have hcons : ∀ k : CatId × Month, consumedLookup C1adjDb 0 none k = 0 := fun k => rfl
  have hav11 : availableOTB C1adjDb 0 none (1, 1) = 90 := by
    rw [availableOTB, heff11, hcons]
    norm_num
  have hav12 : availableOTB C1adjDb 0 none (1, 2) = 90 := by
    rw [availableOTB, heff12, hcons]
    norm_num
  have hav21 : availableOTB C1adjDb 0 none (2, 1) = 110 := by
    rw [availableOTB, heff21, hcons]
    norm_num
  have hrow11 : rowFor 0 7 (effectivePlanned C1adjDb 0 none)
      (consumedLookup C1adjDb 0 none) (availableOTB C1adjDb 0 none) (1, 1) = C1rowA11 := by
    rw [rowFor, heff11, hcons, hav11]
    rfl
  have hrow12 : rowFor 0 7 (effectivePlanned C1adjDb 0 none)
      (consumedLookup C1adjDb 0 none) (availableOTB C1adjDb 0 none) (1, 2) = C1rowA12 := by
    rw [rowFor, heff12, hcons, hav12]
    rfl
  have hrow21 : rowFor 0 7 (effectivePlanned C1adjDb 0 none)
      (consumedLookup C1adjDb 0 none) (availableOTB C1adjDb 0 none) (2, 1) = C1rowA21 := by
    rw [rowFor, heff21, hcons, hav21]
    rfl
  have hpos0 : C1adjDb.positions = [] := rfl
  have hstore : loopStore C1adjDb 0 none 7 C1adjDb.positions =
      [C1rowA11, C1rowA12, C1rowA21] := by
    rw [loopStore, hkeys, hpos0, storeFold_empty 0 7 _ _ _ _ (by decide),
      List.map_cons, List.map_cons, List.map_cons, List.map_nil,
      hrow11, hrow12, hrow21]
  rw [hkeys, hstore]
  simp only [loopRow, List.map_cons, List.map_nil, hrow11, hrow12, hrow21]

/-- Recalculating the unadjusted season: 100 planned in every bucket. -/
theorem C1noadjDb_recalc : recalculate_season C1noadjDb 0 7 =
    Except.ok ({ C1noadjDb with positions := [C1rowN11, C1rowN12, C1rowN21] },
      [C1rowN11, C1rowN12, C1rowN21]) := by
  rw [recalculate_season_run C1noadjDb 0 7 ⟨0, SeasonStatus.created⟩ rfl]
  have hkeys : planKeys C1noadjDb 0 none = [(1, 1), (1, 2), (2, 1)] := rfl
  have heff11 : effectivePlanned C1noadjDb 0 none (1, 1) = 100 := by
    norm_num +decide [effectivePlanned, plannedLookup, planRowsFor, catFilter,
      adjIn, adjOut, C1noadjDb, C1plans]
  have heff12 : effectivePlanned C1noadjDb 0 none (1, 2) = 100 := by
    norm_num +decide [effectivePlanned, plannedLookup, planRowsFor, catFilter,
      adjIn, adjOut, C1noadjDb, C1plans]
  have heff21 : effectivePlanned C1noadjDb 0 none (2, 1) = 100 := by
    norm_num +decide [effectivePlanned, plannedLookup, planRowsFor, catFilter,
      adjIn, adjOut, C1noadjDb, C1plans]
  have hcons : ∀ k : CatId × Month, consumedLookup C1noadjDb 0 none k = 0 := fun k => rfl
  have hav11 : availableOTB C1noadjDb 0 none (1, 1) = 100 := by
    rw [availableOTB, heff11, hcons]
    norm_num
  have hav12 : availableOTB C1noadjDb 0 none (1, 2) = 100 := by
    rw [availableOTB, heff12, hcons]
    norm_num
  have hav21 : availableOTB C1noadjDb 0 none (2, 1) = 100 := by
    rw [availableOTB, heff21, hcons]
    norm_num
  have hrow11 : rowFor 0 7 (effectivePlanned C1noadjDb 0 none)
      (consumedLookup C1noadjDb 0 none) (availableOTB C1noadjDb 0 none) (1, 1) = C1rowN11 := by
    rw [rowFor, heff11, hcons, hav11]
    rfl
  have hrow12 : rowFor 0 7 (effectivePlanned C1noadjDb 0 none)
      (consumedLookup C1noadjDb 0 none) (availableOTB C1noadjDb 0 none) (1, 2) = C1rowN12 := by
    rw [rowFor, heff12, hcons, hav12]
    rfl
  have hrow21 : rowFor 0 7 (effectivePlanned C1noadjDb 0 none)
      (consumedLookup C1noadjDb 0 none) (availableOTB C1noadjDb 0 none) (2, 1) = C1rowN21 := by
    rw [rowFor, heff21, hcons, hav21]
    rfl
  have hpos0 : C1noadjDb.positions = [] := rfl
  have hstore : loopStore C1noadjDb 0 none 7 C1noadjDb.positions =
      [C1rowN11, C1rowN12, C1rowN21] := by
    rw [loopStore, hkeys, hpos0, storeFold_empty 0 7 _ _ _ _ (by decide),
      List.map_cons, List.map_cons, List.map_cons, List.map_nil,
      hrow11, hrow12, hrow21]
  rw [hkeys, hstore]
  simp only [loopRow, List.map_cons, List.map_nil, hrow11, hrow12, hrow21]

/-- Counterexample to C1 as stated: the season holds exactly one approved
adjustment of amount 10 from category 1 to category 2, both categories have
plan rows, yet after `recalculate_season` category 1's stored planned total
is 180, not the claimed 200 - 10 = 190, and the grand total moves from 300
to 290 instead of being conserved — the engine applies the full adjustment
amount in each of a category's `(category, month)` buckets. -/
theorem C1_counterexample :
    recalculate_season C1adjDb 0 7 =
      Except.ok ({ C1adjDb with positions := [C1rowA11, C1rowA12, C1rowA21] },
        [C1rowA11, C1rowA12, C1rowA21]) ∧
    recalculate_season C1noadjDb 0 7 =
      Except.ok ({ C1noadjDb with positions := [C1rowN11, C1rowN12, C1rowN21] },
        [C1rowN11, C1rowN12, C1rowN21]) ∧
    C1adjDb.adjustments.filter (fun a =>
      a.season_id == 0 && a.status == AdjustmentStatus.approved) = [C1adj] ∧
    C1noadjDb.adjustments = [] ∧
    C1noadjDb.plans = C1adjDb.plans ∧ C1noadjDb.orders = C1adjDb.orders ∧
    C1noadjDb.positions = C1adjDb.positions ∧
    C1adj.from_category_id = some 1 ∧ C1adj.to_category_id = some 2 ∧
    C1adj.amount = 10 ∧
    C1adjDb.plans.filter (fun p => p.category_id == 1) ≠ [] ∧
    C1adjDb.plans.filter (fun p => p.category_id == 2) ≠ [] ∧
    catPlannedSum [C1rowA11, C1rowA12, C1rowA21] 0 1 = 180 ∧
    catPlannedSum [C1rowN11, C1rowN12, C1rowN21] 0 1 = 200 ∧
    catPlannedSum [C1rowA11, C1rowA12, C1rowA21] 0 1 ≠
      catPlannedSum [C1rowN11, C1rowN12, C1rowN21] 0 1 - C1adj.amount ∧
    seasonPlannedSum [C1rowA11, C1rowA12, C1rowA21] 0 = 290 ∧
    seasonPlannedSum [C1rowN11, C1rowN12, C1rowN21] 0 = 300 ∧
    seasonPlannedSum [C1rowA11, C1rowA12, C1rowA21] 0 ≠
      seasonPlannedSum [C1rowN11, C1rowN12, C1rowN21] 0 := by
  refine ⟨C1adjDb_recalc, C1noadjDb_recalc, rfl, rfl, rfl, rfl, rfl, rfl, rfl, rfl,
    ?_, ?_, ?_, ?_, ?_, ?_, ?_, ?_⟩
  · decide
  · decide
  · norm_num +decide [catPlannedSum, C1rowA11, C1rowA12, C1rowA21]
  · norm_num +decide [catPlannedSum, C1rowN11, C1rowN12, C1rowN21]
  · norm_num +decide [catPlannedSum, C1adj, C1rowA11, C1rowA12, C1rowA21,
      C1rowN11, C1rowN12, C1rowN21]
  · norm_num +decide [seasonPlannedSum, C1rowA11, C1rowA12, C1rowA21]
  · norm_num +decide [seasonPlannedSum, C1rowN11, C1rowN12, C1rowN21]
  · norm_num +decide [seasonPlannedSum, C1rowA11, C1rowA12, C1rowA21,
      C1rowN11, C1rowN12, C1rowN21]

/-- Witness for the amended C1 on the concrete scenario: category 1 (two
buckets) drops by 2 x 10, category 2 (one bucket) gains 1 x 10, the grand
total moves by (1 - 2) x 10. -/
theorem C1_witness :
    catPlannedSum [C1rowA11, C1rowA12, C1rowA21] 0 1 =
      catPlannedSum [C1rowN11, C1rowN12, C1rowN21] 0 1 -
        (nKeys C1adjDb 0 1 : ℚ) * C1adj.amount ∧
    catPlannedSum [C1rowA11, C1rowA12, C1rowA21] 0 2 =
      catPlannedSum [C1rowN11, C1rowN12, C1rowN21] 0 2 +
        (nKeys C1adjDb 0 2 : ℚ) * C1adj.amount ∧
    seasonPlannedSum [C1rowA11, C1rowA12, C1rowA21] 0 =
      seasonPlannedSum [C1rowN11, C1rowN12, C1rowN21] 0 +
        ((nKeys C1adjDb 0 2 : ℚ) - (nKeys C1adjDb 0 1 : ℚ)) * C1adj.amount :=
  C1_conservation_amended C1adjDb C1noadjDb 0 7 7 C1adj 1 2 rfl rfl rfl
    (by decide) rfl rfl rfl rfl (by decide)
    { C1adjDb with positions := [C1rowA11, C1rowA12, C1rowA21] }
    { C1noadjDb with positions := [C1rowN11, C1rowN12, C1rowN21] }
    [C1rowA11, C1rowA12, C1rowA21] [C1rowN11, C1rowN12, C1rowN21]
    C1adjDb_recalc C1noadjDb_recalc

end OTBEngine
